import Mathlib

/-!
Verification of the Open OnDemand MCP server (`src/mcp/server.py`).

The development shallowly embeds the request/response translation and
error-normalization layer of the server: the two transport functions
(`api_request`, `api_request_raw`) and the per-operation rendering logic of
the exposed tools.  Python dictionaries/lists/strings/ints appearing as JSON
payloads are modelled by the inductive type `Json` (JSON numbers are
restricted to integers in this model; the program only ever handles integral
numbers: statuses, sizes, wall times).  Python exceptions that can escape a
modelled function are made explicit with `Except PyErr`.
-/

set_option maxHeartbeats 1000000
set_option maxRecDepth 4000

/-- JSON values as handled by the Python code (numbers restricted to
integers; Python object/dict modelled as an insertion-ordered association
list). -/
inductive Json where
  | null : Json
  | bool (b : Bool) : Json
  | num (n : Int) : Json
  | str (s : String) : Json
  | arr (elems : List Json) : Json
  | obj (fields : List (String × Json)) : Json
deriving Repr

mutual

/-- Boolean equality of JSON values. -/
def jsonBeq : Json → Json → Bool
  | .null, .null => true
  | .bool a, .bool b => a == b
  | .num a, .num b => a == b
  | .str a, .str b => a == b
  | .arr xs, .arr ys => jsonBeqList xs ys
  | .obj xs, .obj ys => jsonBeqPairs xs ys
  | _, _ => false

/-- Boolean equality of JSON value lists. -/
def jsonBeqList : List Json → List Json → Bool
  | [], [] => true
  | x :: xs, y :: ys => jsonBeq x y && jsonBeqList xs ys
  | _, _ => false

/-- Boolean equality of JSON object field lists. -/
def jsonBeqPairs : List (String × Json) → List (String × Json) → Bool
  | [], [] => true
  | (k1, v1) :: xs, (k2, v2) :: ys => k1 == k2 && jsonBeq v1 v2 && jsonBeqPairs xs ys
  | _, _ => false

end

mutual

theorem jsonBeq_iff : ∀ a b : Json, jsonBeq a b = true ↔ a = b
  | .null, .null => by simp [jsonBeq]
  | .null, .bool _ | .null, .num _ | .null, .str _ | .null, .arr _ | .null, .obj _ => by
    simp [jsonBeq]
  | .bool _, .null | .bool _, .num _ | .bool _, .str _ | .bool _, .arr _ | .bool _, .obj _ => by
    simp [jsonBeq]
  | .num _, .null | .num _, .bool _ | .num _, .str _ | .num _, .arr _ | .num _, .obj _ => by
    simp [jsonBeq]
  | .str _, .null | .str _, .bool _ | .str _, .num _ | .str _, .arr _ | .str _, .obj _ => by
    simp [jsonBeq]
  | .arr _, .null | .arr _, .bool _ | .arr _, .num _ | .arr _, .str _ | .arr _, .obj _ => by
    simp [jsonBeq]
  | .obj _, .null | .obj _, .bool _ | .obj _, .num _ | .obj _, .str _ | .obj _, .arr _ => by
    simp [jsonBeq]
  | .bool a, .bool b => by simp [jsonBeq]
  | .num a, .num b => by simp [jsonBeq]
  | .str a, .str b => by simp [jsonBeq]
  | .arr xs, .arr ys => by simp [jsonBeq, jsonBeqList_iff xs ys]
  | .obj xs, .obj ys => by simp [jsonBeq, jsonBeqPairs_iff xs ys]

theorem jsonBeqList_iff : ∀ xs ys : List Json, jsonBeqList xs ys = true ↔ xs = ys
  | [], [] => by simp [jsonBeqList]
  | [], _ :: _ => by simp [jsonBeqList]
  | _ :: _, [] => by simp [jsonBeqList]
  | x :: xs, y :: ys => by
    simp [jsonBeqList, jsonBeq_iff x y, jsonBeqList_iff xs ys]

theorem jsonBeqPairs_iff :
    ∀ xs ys : List (String × Json), jsonBeqPairs xs ys = true ↔ xs = ys
  | [], [] => by simp [jsonBeqPairs]
  | [], _ :: _ => by simp [jsonBeqPairs]
  | _ :: _, [] => by simp [jsonBeqPairs]
  | (k1, v1) :: xs, (k2, v2) :: ys => by
    simp [jsonBeqPairs, jsonBeq_iff v1 v2, jsonBeqPairs_iff xs ys, and_assoc]

end

instance : DecidableEq Json := fun a b => decidable_of_iff _ (jsonBeq_iff a b)

/-- Python exceptions that can escape the modelled fragments of the code. -/
inductive PyErr where
  | unicodeDecodeError : PyErr
  | jsonDecodeError : PyErr
  | keyError : PyErr
  | typeError : PyErr
  | attributeError : PyErr
  | indexError : PyErr
deriving DecidableEq, Repr

/-- Outcome of the single `urllib.request.urlopen` round trip performed by a
transport call: the remote produced a success response, the remote produced
an HTTP error status (raised as `urllib.error.HTTPError`, carrying the
status code and the error body), or no response was obtained at all (raised
as `urllib.error.URLError`, carrying a reason). -/
inductive HttpOutcome where
  | ok (status : Int) (body : List Nat) : HttpOutcome
  | httpError (code : Int) (body : List Nat) : HttpOutcome
  | urlError (reason : String) : HttpOutcome
deriving DecidableEq, Repr

/-! ## UTF-8 encoding and decoding

Models Python `str.encode("utf-8")` and `bytes.decode("utf-8")` (strict
errors).  Bytes are `Nat` values; the decoder rejects exactly what CPython
rejects: stray continuation bytes, overlong encodings, surrogate code
points, and code points above `0x10FFFF`. -/

/-- UTF-8 encoding of a single unicode scalar value (Python
`str.encode("utf-8")`, per character). -/
def utf8EncodeChar (c : Char) : List Nat :=
  let n := c.toNat
  if n < 0x80 then [n]
  else if n < 0x800 then [0xC0 + n / 64, 0x80 + n % 64]
  else if n < 0x10000 then [0xE0 + n / 4096, 0x80 + n / 64 % 64, 0x80 + n % 64]
  else [0xF0 + n / 262144, 0x80 + n / 4096 % 64, 0x80 + n / 64 % 64, 0x80 + n % 64]

/-- Model of Python `str.encode("utf-8")`. -/
def utf8Encode (s : String) : List Nat :=
  s.data.flatMap utf8EncodeChar

/-- One UTF-8 sequence at the head of the byte list: the decoded character
and the remaining bytes.  Branch conditions follow CPython\'s strict
decoder: no stray continuation bytes, no overlong forms, no surrogates, no
code points above `0x10FFFF`. -/
def utf8DecodeStep (bs : List Nat) : Option (Char × List Nat) :=
  match bs with
  | [] => none
  | b :: rest =>
    if b < 0x80 then some (Char.ofNat b, rest)
    else if b < 0xC2 then none
    else if b ≤ 0xDF then
      match rest with
      | b2 :: rest2 =>
        if 0x80 ≤ b2 ∧ b2 ≤ 0xBF then
          some (Char.ofNat ((b - 0xC0) * 64 + (b2 - 0x80)), rest2)
        else none
      | [] => none
    else if b ≤ 0xEF then
      match rest with
      | b2 :: b3 :: rest3 =>
        if (if b = 0xE0 then 0xA0 else 0x80) ≤ b2 ∧
            b2 ≤ (if b = 0xED then 0x9F else 0xBF) ∧ 0x80 ≤ b3 ∧ b3 ≤ 0xBF then
          some (Char.ofNat ((b - 0xE0) * 4096 + (b2 - 0x80) * 64 + (b3 - 0x80)), rest3)
        else none
      | _ => none
    else if b ≤ 0xF4 then
      match rest with
      | b2 :: b3 :: b4 :: rest4 =>
        if (if b = 0xF0 then 0x90 else 0x80) ≤ b2 ∧
            b2 ≤ (if b = 0xF4 then 0x8F else 0xBF) ∧
            0x80 ≤ b3 ∧ b3 ≤ 0xBF ∧ 0x80 ≤ b4 ∧ b4 ≤ 0xBF then
          some (Char.ofNat ((b - 0xF0) * 262144 + (b2 - 0x80) * 4096 +
            (b3 - 0x80) * 64 + (b4 - 0x80)), rest4)
        else none
      | _ => none
    else none

theorem utf8DecodeStep_shrinks {bs : List Nat} {p : Char × List Nat}
    (h : utf8DecodeStep bs = some p) : p.2.length < bs.length := by
  unfold utf8DecodeStep at h
  repeat' split at h
  all_goals cases h
  all_goals simp [List.length]
  all_goals omega

/-- Iterated UTF-8 decoding with explicit fuel; by
`utf8DecodeStep_shrinks` every step consumes at least one byte, so fuel
equal to the input length never runs out. -/
def utf8DecodeGo : Nat → List Nat → Option (List Char)
  | _, [] => some []
  | 0, _ :: _ => none
  | fuel + 1, b :: rest =>
    match utf8DecodeStep (b :: rest) with
    | some p => (utf8DecodeGo fuel p.2).map fun cs => p.1 :: cs
    | none => none

/-- Strict UTF-8 decoder on byte lists (model of Python
`bytes.decode("utf-8")` at the character-sequence level); `none` models
`UnicodeDecodeError`. -/
def utf8DecodeChars (bs : List Nat) : Option (List Char) :=
  utf8DecodeGo bs.length bs

/-- Model of Python `bytes.decode("utf-8")`; `none` models
`UnicodeDecodeError`. -/
def utf8Decode (bs : List Nat) : Option String :=
  (utf8DecodeChars bs).map fun cs => ⟨cs⟩

/-! ## Python value semantics on `Json`

Helpers mirroring the dynamic Python operations the server applies to
decoded JSON values: truthiness, `in`, subscripting, `dict.get`, iteration
and `str()` conversion. -/

/-- Python truthiness of a JSON value (`bool(x)`). -/
def pyTruthy : Json → Bool
  | .null => false
  | .bool b => b
  | .num n => n ≠ 0
  | .str s => s ≠ ""
  | .arr xs => !xs.isEmpty
  | .obj kvs => !kvs.isEmpty

/-- First binding of a key in a JSON object field list (Python dicts are
unique-keyed, so the first binding is the binding). -/
def jlookup (kvs : List (String × Json)) (k : String) : Option Json :=
  match kvs with
  | [] => none
  | (k2, v) :: rest => if k2 = k then some v else jlookup rest k

/-- Whether a JSON object field list binds a key. -/
def jhasKey (kvs : List (String × Json)) (k : String) : Bool :=
  (jlookup kvs k).isSome

/-- Python membership test `x in v` with a string left operand, as used by
the server (`"data" in result`): key test on dicts, element test on lists,
substring test on strings, `TypeError` otherwise. -/
def pyIn (x : String) (v : Json) : Except PyErr Bool :=
  match v with
  | .obj kvs => .ok (jhasKey kvs x)
  | .arr xs => .ok (xs.contains (.str x))
  | .str s => .ok (decide (List.IsInfix x.data s.data))
  | _ => .error .typeError

/-- Python subscript `v[key]`: dict lookup (`KeyError` when absent),
list/str indexing for integer keys (with negative indices), `TypeError`
for the remaining combinations. -/
def pySubscript (v : Json) (key : Json) : Except PyErr Json :=
  match v, key with
  | .obj kvs, .str k =>
    match jlookup kvs k with
    | some w => .ok w
    | none => .error .keyError
  | .obj _, _ => .error .keyError
  | .arr xs, .num i =>
    let j : Int := if i < 0 then i + xs.length else i
    if h : 0 ≤ j ∧ j.toNat < xs.length then .ok (xs.get ⟨j.toNat, h.2⟩)
    else .error .indexError
  | .str s, .num i =>
    let j : Int := if i < 0 then i + s.length else i
    if h : 0 ≤ j ∧ j.toNat < s.data.length then
      .ok (.str (String.singleton (s.data.get ⟨j.toNat, h.2⟩)))
    else .error .indexError
  | _, _ => .error .typeError

/-- Python `v.get(key, default)`: only dicts have `.get`; anything else
raises `AttributeError`. -/
def pyGet (v : Json) (k : String) (dflt : Json) : Except PyErr Json :=
  match v with
  | .obj kvs =>
    match jlookup kvs k with
    | some w => .ok w
    | none => .ok dflt
  | _ => .error .attributeError

/-- Python iteration `for x in v`: list elements, dict keys, string
characters; `TypeError` otherwise. -/
def pyIter (v : Json) : Except PyErr (List Json) :=
  match v with
  | .arr xs => .ok xs
  | .obj kvs => .ok (kvs.map fun p => .str p.1)
  | .str s => .ok (s.data.map fun c => .str (String.singleton c))
  | _ => .error .typeError

/-- Helper for `pyRepr` on strings: Python escapes the backslash, the
chosen quote and the common control characters; other C0 controls become
hex escapes.  (Non-printable characters above `0x7F` are modelled
literally.) -/
def pyReprStrChar (quote : Char) (c : Char) : String :=
  if c = '\\' then "\\\\"
  else if c = quote then "\\" ++ String.singleton quote
  else if c = '\n' then "\\n"
  else if c = '\r' then "\\r"
  else if c = '\t' then "\\t"
  else if c.toNat < 0x20 ∨ c.toNat = 0x7F then
    "\\x" ++ String.singleton (Nat.digitChar (c.toNat / 16)) ++
      String.singleton (Nat.digitChar (c.toNat % 16))
  else String.singleton c

/-- Python `repr` of a string: single-quoted unless the string contains a
single quote and no double quote. -/
def pyReprStr (s : String) : String :=
  let quote : Char := if s.data.contains '\x27' ∧ ¬s.data.contains '"' then '"' else '\x27'
  String.singleton quote ++ String.join (s.data.map (pyReprStrChar quote)) ++
    String.singleton quote

mutual

/-- Python `str()` of a JSON value, as applied by f-string interpolation in
the server: `None`/`True`/`False`, decimal integers, strings verbatim, and
`repr`-style renderings of containers. -/
def pyStr : Json → String
  | .null => "None"
  | .bool b => if b then "True" else "False"
  | .num n => toString n
  | .str s => s
  | .arr xs => "[" ++ String.intercalate ", " (pyReprList xs) ++ "]"
  | .obj kvs => "\x7b" ++ String.intercalate ", " (pyReprPairs kvs) ++ "\x7d"

/-- Python `repr` of a JSON value (used for container elements). -/
def pyRepr : Json → String
  | .null => "None"
  | .bool b => if b then "True" else "False"
  | .num n => toString n
  | .str s => pyReprStr s
  | .arr xs => "[" ++ String.intercalate ", " (pyReprList xs) ++ "]"
  | .obj kvs => "\x7b" ++ String.intercalate ", " (pyReprPairs kvs) ++ "\x7d"

/-- `repr` of every element of a list of JSON values. -/
def pyReprList : List Json → List String
  | [] => []
  | x :: xs => pyRepr x :: pyReprList xs

/-- `repr` of every binding of a JSON object field list. -/
def pyReprPairs : List (String × Json) → List String
  | [] => []
  | (k, v) :: rest => (pyReprStr k ++ ": " ++ pyRepr v) :: pyReprPairs rest

end

/-! ## JSON text: parsing and serialization

`jsonLoads` models Python `json.loads` on the fragment handled by this
development: integer numerals and scalar (non-surrogate) strings.  Floats,
`NaN`/`Infinity` and lone-surrogate `\uXXXX` escapes are outside the model
and reported as parse failures.  `none` models `json.JSONDecodeError`. -/

/-- JSON whitespace characters accepted by the Python parser. -/
def isJsonWs (c : Char) : Bool :=
  c == ' ' || c == '\t' || c == '\n' || c == '\r'

/-- Drop leading JSON whitespace. -/
def skipWs : List Char → List Char
  | [] => []
  | c :: rest => if isJsonWs c then skipWs rest else c :: rest

/-- Value of one hexadecimal digit character. -/
def hexDigitVal (c : Char) : Option Nat :=
  if '0' ≤ c ∧ c ≤ '9' then some (c.toNat - 48)
  else if 'a' ≤ c ∧ c ≤ 'f' then some (c.toNat - 87)
  else if 'A' ≤ c ∧ c ≤ 'F' then some (c.toNat - 55)
  else none

/-- One item of a JSON string literal body: either one decoded character
(`some c`) or the closing quote (`none`), together with the remaining
input.  Surrogate `\\uXXXX` escapes must pair up (lone surrogates are
outside the model). -/
def parseStringStep (cs : List Char) : Option (Option Char × List Char) :=
  match cs with
  | [] => none
  | '"' :: rest => some (none, rest)
  | '\\' :: 'u' :: c1 :: c2 :: c3 :: c4 :: rest =>
    match hexDigitVal c1, hexDigitVal c2, hexDigitVal c3, hexDigitVal c4 with
    | some d1, some d2, some d3, some d4 =>
      if 0xD800 ≤ d1 * 4096 + d2 * 256 + d3 * 16 + d4 ∧
          d1 * 4096 + d2 * 256 + d3 * 16 + d4 ≤ 0xDBFF then
        match rest with
        | '\\' :: 'u' :: e1 :: e2 :: e3 :: e4 :: rest2 =>
          match hexDigitVal e1, hexDigitVal e2, hexDigitVal e3, hexDigitVal e4 with
          | some g1, some g2, some g3, some g4 =>
            if 0xDC00 ≤ g1 * 4096 + g2 * 256 + g3 * 16 + g4 ∧
                g1 * 4096 + g2 * 256 + g3 * 16 + g4 ≤ 0xDFFF then
              some (some (Char.ofNat (0x10000 +
                (d1 * 4096 + d2 * 256 + d3 * 16 + d4 - 0xD800) * 1024 +
                (g1 * 4096 + g2 * 256 + g3 * 16 + g4 - 0xDC00))), rest2)
            else none
          | _, _, _, _ => none
        | _ => none
      else if 0xDC00 ≤ d1 * 4096 + d2 * 256 + d3 * 16 + d4 ∧
          d1 * 4096 + d2 * 256 + d3 * 16 + d4 ≤ 0xDFFF then none
      else some (some (Char.ofNat (d1 * 4096 + d2 * 256 + d3 * 16 + d4)), rest)
    | _, _, _, _ => none
  | '\\' :: e :: rest =>
    if e = '"' then some (some '"', rest)
    else if e = '\\' then some (some '\\', rest)
    else if e = '/' then some (some '/', rest)
    else if e = 'b' then some (some '\x08', rest)
    else if e = 'f' then some (some '\x0C', rest)
    else if e = 'n' then some (some '\n', rest)
    else if e = 'r' then some (some '\r', rest)
    else if e = 't' then some (some '\t', rest)
    else none
  | c :: rest =>
    if c.toNat < 0x20 then none else some (some c, rest)

theorem parseStringStep_shrinks {cs : List Char} {p : Option Char × List Char}
    (h : parseStringStep cs = some p) : p.2.length < cs.length := by
  unfold parseStringStep at h
  repeat' split at h
  all_goals cases h
  all_goals simp [List.length_cons]
  all_goals omega

/-- Iterated string-literal decoding with explicit fuel; by
`parseStringStep_shrinks` every step consumes at least one character, so
fuel exceeding the input length never runs out. -/
def parseStringGo : Nat → List Char → Option (List Char × List Char)
  | 0, _ => none
  | fuel + 1, cs =>
    match parseStringStep cs with
    | some (some c, rest) => (parseStringGo fuel rest).map fun p => (c :: p.1, p.2)
    | some (none, rest) => some ([], rest)
    | none => none

/-- Body of a JSON string literal, after the opening quote: the decoded
characters and the input following the closing quote. -/
def parseStringBody (cs : List Char) : Option (List Char × List Char) :=
  parseStringGo (cs.length + 1) cs

/-- Longest digit prefix of the input and the remainder. -/
def takeDigits : List Char → List Char × List Char
  | [] => ([], [])
  | c :: rest =>
    if c.isDigit then
      let p := takeDigits rest
      (c :: p.1, p.2)
    else ([], c :: rest)

/-- Numeric value of a most-significant-first digit character list. -/
def digitsVal (ds : List Char) : Nat :=
  ds.foldl (fun acc c => acc * 10 + (c.toNat - 48)) 0

/-- Unsigned JSON integer numeral: one digit `0`, or a nonzero digit
followed by digits (a digit after a leading `0` is a syntax error). -/
def parseIntLit : List Char → Option (Nat × List Char)
  | [] => none
  | c :: rest =>
    if c = '0' then
      match rest with
      | d :: _ => if d.isDigit then none else some (0, rest)
      | [] => some (0, [])
    else if c.isDigit then
      let p := takeDigits rest
      some (digitsVal (c :: p.1), p.2)
    else none

/-- Whether the input continues a numeral as a float (outside the model of
integer-valued JSON). -/
def floatContinues : List Char → Bool
  | [] => false
  | c :: _ => c == '.' || c == 'e' || c == 'E'

/-- Insert a binding into an object field list the way the Python parser
builds dicts: an existing key keeps its position and gets the new value, a
new key is appended. -/
def objInsert (kvs : List (String × Json)) (k : String) (v : Json) :
    List (String × Json) :=
  match kvs with
  | [] => [(k, v)]
  | (k2, w) :: rest =>
    if k2 = k then (k2, v) :: rest else (k2, w) :: objInsert rest k v

mutual

/-- One JSON value at the head of the input (no leading whitespace);
returns the value and the remaining input.  The `fuel` argument bounds the
depth of nested parser calls; `jsonLoads` passes enough for any input. -/
def parseValue : Nat → List Char → Option (Json × List Char)
  | 0, _ => none
  | fuel + 1, cs =>
    match cs with
    | [] => none
    | c :: rest =>
      if c = '"' then (parseStringBody rest).map fun p => (.str ⟨p.1⟩, p.2)
      else if c = '[' then
        match skipWs rest with
        | ']' :: r2 => some (.arr [], r2)
        | r1 => parseElems fuel [] r1
      else if c = '\x7b' then
        match skipWs rest with
        | '\x7d' :: r2 => some (.obj [], r2)
        | r1 => parseMembers fuel [] r1
      else if c = 't' then
        if rest.take 3 = ['r', 'u', 'e'] then some (.bool true, rest.drop 3) else none
      else if c = 'f' then
        if rest.take 4 = ['a', 'l', 's', 'e'] then some (.bool false, rest.drop 4)
        else none
      else if c = 'n' then
        if rest.take 3 = ['u', 'l', 'l'] then some (.null, rest.drop 3) else none
      else if c = '-' then
        match parseIntLit rest with
        | some p => if floatContinues p.2 then none else some (.num (-(p.1 : Int)), p.2)
        | none => none
      else
        match parseIntLit cs with
        | some p => if floatContinues p.2 then none else some (.num (p.1 : Int), p.2)
        | none => none

/-- Non-empty array tail: elements separated by commas until `]`. -/
def parseElems : Nat → List Json → List Char → Option (Json × List Char)
  | 0, _, _ => none
  | fuel + 1, acc, cs =>
    match parseValue fuel cs with
    | some (v, r) =>
      match skipWs r with
      | ',' :: r2 => parseElems fuel (acc ++ [v]) (skipWs r2)
      | ']' :: r2 => some (.arr (acc ++ [v]), r2)
      | _ => none
    | none => none

/-- Non-empty object tail: `"key": value` bindings separated by commas
until `}`. -/
def parseMembers : Nat → List (String × Json) → List Char →
    Option (Json × List Char)
  | 0, _, _ => none
  | fuel + 1, acc, cs =>
    match cs with
    | '"' :: rest =>
      match parseStringBody rest with
      | some (kcs, r) =>
        match skipWs r with
        | ':' :: r2 =>
          match parseValue fuel (skipWs r2) with
          | some (v, r3) =>
            match skipWs r3 with
            | ',' :: r5 => parseMembers fuel (objInsert acc ⟨kcs⟩ v) (skipWs r5)
            | '\x7d' :: r5 => some (.obj (objInsert acc ⟨kcs⟩ v), r5)
            | _ => none
          | none => none
        | _ => none
      | none => none
    | _ => none

end

/-- Model of Python `json.loads` (restricted as described above): one JSON
value surrounded by optional whitespace; anything else, including trailing
data, is a parse failure. -/
def jsonLoads (s : String) : Option Json :=
  let cs := skipWs s.data
  match parseValue (cs.length + 1) cs with
  | some (v, rest) => if (skipWs rest).isEmpty then some v else none
  | none => none

/-- Escape of one character in a serialized JSON string: quote, backslash
and C0 controls are escaped, everything else is literal. -/
def escapeJsonChar (c : Char) : List Char :=
  if c = '"' then ['\\', '"']
  else if c = '\\' then ['\\', '\\']
  else if c.toNat < 0x20 then
    ['\\', 'u', '0', '0', Nat.digitChar (c.toNat / 16), Nat.digitChar (c.toNat % 16)]
  else [c]

/-- Decimal digit characters of a natural number, most significant first. -/
def natChars (n : Nat) : List Char :=
  if n = 0 then ['0'] else (Nat.digits 10 n).reverse.map Nat.digitChar

/-- Decimal form of an integer. -/
def intChars (n : Int) : List Char :=
  if n < 0 then '-' :: natChars n.natAbs else natChars n.natAbs

/-- Serialized object key together with the following colon. -/
def serKey (k : String) : List Char :=
  '"' :: k.data.flatMap escapeJsonChar ++ ['"', ':']

mutual

/-- Compact JSON serialization of a value, as character list. -/
def serChars : Json → List Char
  | .null => ['n', 'u', 'l', 'l']
  | .bool false => ['f', 'a', 'l', 's', 'e']
  | .bool true => ['t', 'r', 'u', 'e']
  | .num n => intChars n
  | .str s => '"' :: s.data.flatMap escapeJsonChar ++ ['"']
  | .arr xs => '[' :: (serElems xs ++ [']'])
  | .obj ps => '\x7b' :: (serMembers ps ++ ['\x7d'])

/-- Serialized elements of an array, comma separated. -/
def serElems : List Json → List Char
  | [] => []
  | [x] => serChars x
  | x :: y :: ys => serChars x ++ ',' :: serElems (y :: ys)

/-- Serialized bindings of an object, comma separated. -/
def serMembers : List (String × Json) → List Char
  | [] => []
  | [(k, v)] => serKey k ++ serChars v
  | (k, v) :: p :: ps => (serKey k ++ serChars v) ++ ',' :: serMembers (p :: ps)

end

/-- Modelled from the spec: the remote API serializes its JSON response
payloads as JSON text (spec section 6, remote API contract).  The remote is
external to this repository; this is a standard compact JSON serializer
over the modelled value fragment. -/
def jsonSerialize (v : Json) : String :=
  ⟨serChars v⟩

/-- No key is bound twice in an object field list. -/
def nodupKeysb : List (String × Json) → Bool
  | [] => true
  | (k, _) :: rest => !(rest.any fun p => p.1 == k) && nodupKeysb rest

mutual

/-- Well-formed JSON value: every object inside binds each key at most
once (automatic for values arising from Python dicts). -/
def jsonWFb : Json → Bool
  | .null => true
  | .bool _ => true
  | .num _ => true
  | .str _ => true
  | .arr xs => jsonWFbList xs
  | .obj kvs => nodupKeysb kvs && jsonWFbPairs kvs

/-- Well-formedness of every value of a list. -/
def jsonWFbList : List Json → Bool
  | [] => true
  | x :: xs => jsonWFb x && jsonWFbList xs

/-- Well-formedness of every value of an object field list. -/
def jsonWFbPairs : List (String × Json) → Bool
  | [] => true
  | (_, v) :: rest => jsonWFb v && jsonWFbPairs rest

end

/-! ## Transport layer -/

/-- Model of `api_request` (`src/mcp/server.py` lines 51-73), applied to
the outcome of the HTTP round trip.  Success branch: read the body, decode
it as UTF-8 and parse it as JSON (neither a decode failure nor a parse
failure is caught: only `urllib.error.HTTPError` and `urllib.error.URLError`
are).  `HTTPError` branch: decode the error body (a decode failure raises:
the inner handler catches only `json.JSONDecodeError`), return its parsed
JSON when it parses, else the synthesized object with the status code and
the body text.  `URLError` branch: the synthesized connection error
object. -/
def api_request (outcome : HttpOutcome) : Except PyErr Json :=
  match outcome with
  | .ok _ body =>
    match utf8Decode body with
    | none => .error .unicodeDecodeError
    | some s =>
      match jsonLoads s with
      | none => .error .jsonDecodeError
      | some j => .ok j
  | .httpError code body =>
    match utf8Decode body with
    | none => .error .unicodeDecodeError
    | some s =>
      match jsonLoads s with
      | some j => .ok j
      | none => .ok (.obj [("error", .num code), ("message", .str s)])
  | .urlError reason =>
    .ok (.obj [("error", .str "connection_error"), ("message", .str reason)])

/-- Model of `api_request_raw` (`src/mcp/server.py` lines 240-255): returns
the literal status and byte body; on `HTTPError` the error status and error
body; on `URLError` status `0` and the reason text encoded as UTF-8
bytes. -/
def api_request_raw (outcome : HttpOutcome) : Int × List Nat :=
  match outcome with
  | .ok status body => (status, body)
  | .httpError code body => (code, body)
  | .urlError reason => (0, utf8Encode reason)

/-! ## Operation layer

One render function per exposed tool, mirroring `src/mcp/server.py`.  Each
takes the tool's own arguments and the transport result (`Json` for the
structured operations, status and byte body for the raw file operations)
and produces the rendered text, with Python exceptions explicit.  URL/query
construction (percent encoding of path and query arguments) is not needed
by any claim and is not modelled. -/

/-- Optional string field of the outgoing `submit_job` payload: present
exactly when the Python argument tests truthy (`if arg:`), i.e. is not
`None` and not the empty string. -/
def optStrField (name : String) (v : Option String) : List (String × Json) :=
  match v with
  | some s => if s = "" then [] else [(name, .str s)]
  | none => []

/-- Optional integer field of the outgoing `submit_job` payload: present
exactly when the Python argument tests truthy, i.e. is not `None` and not
`0`. -/
def optIntField (name : String) (v : Option Int) : List (String × Json) :=
  match v with
  | some n => if n = 0 then [] else [(name, .num n)]
  | none => []

/-- Outgoing JSON payload built by `submit_job` (`src/mcp/server.py` lines
193-208): required `cluster` and `script.content`, optional `script.workdir`
and `options` entries added by `if arg:` guards in source order. -/
def submit_job_payload (cluster_id script_content : String)
    (job_name queue_name : Option String) (wall_time : Option Int)
    (workdir accounting_id : Option String) : Json :=
  .obj [("cluster", .str cluster_id),
    ("script", .obj ([("content", .str script_content)] ++ optStrField "workdir" workdir)),
    ("options", .obj (optStrField "job_name" job_name ++
      optStrField "queue_name" queue_name ++
      optIntField "wall_time" wall_time ++
      optStrField "accounting_id" accounting_id))]

/-- Rendering of `list_clusters` (lines 83-96) applied to the structured
transport result. -/
def list_clusters_render (result : Json) : Except PyErr String := do
  if ← pyIn "data" result then
    let clusters ← pySubscript result (.str "data")
    if !pyTruthy clusters then
      return "No clusters available."
    let items ← pyIter clusters
    let lines ← items.foldlM (fun (lines : List String) c => do
      let cid ← pySubscript c (.str "id")
      let title ← pyGet c "title" cid
      let adapter ← pyGet c "adapter" (.str "unknown")
      let lines := lines ++ [s!"- {pyStr cid}: {pyStr title}",
        s!"  Scheduler: {pyStr adapter}"]
      let lh ← pyGet c "login_host" .null
      let lines ← if pyTruthy lh then do
          let lh2 ← pySubscript c (.str "login_host")
          pure (lines ++ [s!"  Login host: {pyStr lh2}"])
        else pure lines
      pure (lines ++ [""])) ["Available HPC Clusters:", ""]
    return String.intercalate "\n" lines
  else
    let msg ← pyGet result "message" (.str "Unknown error")
    return s!"Error: {pyStr msg}"

/-- Rendering of `get_cluster` (lines 100-115). -/
def get_cluster_render (result : Json) : Except PyErr String := do
  if ← pyIn "data" result then
    let c ← pySubscript result (.str "data")
    let cid ← pySubscript c (.str "id")
    let title ← pyGet c "title" cid
    let adapter ← pyGet c "adapter" (.str "unknown")
    let lh ← pyGet c "login_host" (.str "N/A")
    return s!"Cluster: {pyStr cid}\nTitle: {pyStr title}\nScheduler: {pyStr adapter}\nLogin Host: {pyStr lh}"
  else
    let msg ← pyGet result "message" (.str "Cluster not found")
    return s!"Error: {pyStr msg}"

/-- Rendering of `list_jobs` (lines 119-140). -/
def list_jobs_render (cluster_id : String) (result : Json) :
    Except PyErr String := do
  if ← pyIn "data" result then
    let jobs ← pySubscript result (.str "data")
    if !pyTruthy jobs then
      return s!"No jobs found on cluster \x27{cluster_id}\x27."
    let items ← pyIter jobs
    let lines ← items.foldlM (fun (lines : List String) j => do
      let jid ← pySubscript j (.str "job_id")
      let name ← pyGet j "job_name" (.str "N/A")
      let status ← pyGet j "status" (.str "unknown")
      let queue ← pyGet j "queue_name" (.str "N/A")
      pure (lines ++ [s!"Job ID: {pyStr jid}", s!"  Name: {pyStr name}",
        s!"  Status: {pyStr status}", s!"  Queue: {pyStr queue}", ""]))
      [s!"Jobs on {cluster_id}:", ""]
    return String.intercalate "\n" lines
  else
    let msg ← pyGet result "message" (.str "Failed to list jobs")
    return s!"Error: {pyStr msg}"

/-- Rendering of `get_job` (lines 144-168). -/
def get_job_render (cluster_id : String) (result : Json) :
    Except PyErr String := do
  if ← pyIn "data" result then
    let j ← pySubscript result (.str "data")
    let jid ← pySubscript j (.str "job_id")
    let cluster ← pyGet j "cluster" (.str cluster_id)
    let name ← pyGet j "job_name" (.str "N/A")
    let status ← pyGet j "status" (.str "unknown")
    let owner ← pyGet j "job_owner" (.str "N/A")
    let queue ← pyGet j "queue_name" (.str "N/A")
    let acct ← pyGet j "accounting_id" (.str "N/A")
    let sub ← pyGet j "submitted_at" (.str "N/A")
    let started ← pyGet j "started_at" (.str "N/A")
    let wct ← pyGet j "wallclock_time" (.str "N/A")
    let wcl ← pyGet j "wallclock_limit" (.str "N/A")
    return s!"Job Details:\nJob ID: {pyStr jid}\nCluster: {pyStr cluster}\nName: {pyStr name}\nStatus: {pyStr status}\nOwner: {pyStr owner}\nQueue: {pyStr queue}\nAccount: {pyStr acct}\nSubmitted: {pyStr sub}\nStarted: {pyStr started}\nWall Time: {pyStr wct} / {pyStr wcl} seconds"
  else
    let msg ← pyGet result "message" (.str "Job not found")
    return s!"Error: {pyStr msg}"

/-- Rendering of `submit_job` (lines 210-217) applied to the structured
transport result of posting the payload. -/
def submit_job_render (cluster_id : String) (result : Json) :
    Except PyErr String := do
  if ← pyIn "data" result then
    let j ← pySubscript result (.str "data")
    let jid ← pySubscript j (.str "job_id")
    let cluster ← pyGet j "cluster" (.str cluster_id)
    let status ← pyGet j "status" (.str "submitted")
    return s!"Job submitted successfully!\nJob ID: {pyStr jid}\nCluster: {pyStr cluster}\nStatus: {pyStr status}"
  else
    let msg ← pyGet result "message" (.str "Unknown error")
    return s!"Error submitting job: {pyStr msg}"

/-- Rendering of `cancel_job` (lines 221-234). -/
def cancel_job_render (job_id : String) (result : Json) :
    Except PyErr String := do
  if ← pyIn "data" result then
    return s!"Job {job_id} has been cancelled."
  else
    let msg ← pyGet result "message" (.str "Unknown error")
    return s!"Error cancelling job: {pyStr msg}"

/-- Rendering of `list_files` (lines 259-290).  The two indicator literals
are the exact character sequences of the source file. -/
def list_files_render (path : String) (result : Json) :
    Except PyErr String := do
  if ← pyIn "data" result then
    let files ← pySubscript result (.str "data")
    match files with
    | .obj _ => do
      let fpath ← pySubscript files (.str "path")
      let dirFlag ← pyGet files "directory" .null
      let ftype := if pyTruthy dirFlag then "directory" else "file"
      let size ← pyGet files "size" (.str "N/A")
      let owner ← pyGet files "owner" (.str "N/A")
      let mtime ← pyGet files "mtime" (.str "N/A")
      return s!"File: {pyStr fpath}\nType: {ftype}\nSize: {pyStr size} bytes\nOwner: {pyStr owner}\nModified: {pyStr mtime}"
    | _ => do
      if !pyTruthy files then
        return s!"Directory \x27{path}\x27 is empty."
      let items ← pyIter files
      let lines ← items.foldlM (fun (lines : List String) f => do
        let dirFlag ← pyGet f "directory" .null
        let ind := if pyTruthy dirFlag then "ðŸ“" else "ðŸ“„"
        let sizeFlag ← pyGet f "size" .null
        let size ← if pyTruthy sizeFlag then do
            let sz ← pySubscript f (.str "size")
            pure s!"({pyStr sz} bytes)"
          else pure ""
        let name ← pySubscript f (.str "name")
        pure (lines ++ [s!"{ind} {pyStr name} {size}"]))
        [s!"Contents of {path}:", ""]
      return String.intercalate "\n" lines
  else
    let msg ← pyGet result "message" (.str "Failed to list files")
    return s!"Error: {pyStr msg}"

/-- Rendering of `read_file` (lines 294-320) applied to the raw transport
status and body. -/
def read_file_render (path : String) (status : Int) (body : List Nat) :
    Except PyErr String :=
  if status = 200 then
    match utf8Decode body with
    | some s => .ok s
    | none => .ok s!"[Binary file, {body.length} bytes]"
  else if status = 404 then .ok s!"Error: File not found: {path}"
  else if status = 403 then .ok s!"Error: Permission denied: {path}"
  else if status = 400 then
    match utf8Decode body with
    | none => .ok "Error: Bad request"
    | some s =>
      match jsonLoads s with
      | none => .ok "Error: Bad request"
      | some e => do
        let msg ← pyGet e "message" (.str "Bad request")
        return s!"Error: {pyStr msg}"
  else .ok s!"Error reading file (status {status})"

/-- Request body sent by `write_file` (line 336): the UTF-8 encoding of the
content argument. -/
def write_file_request_body (content : String) : List Nat :=
  utf8Encode content

/-- Rendering of `write_file` (lines 324-348) applied to the raw transport
status and response body.  On status 200 the source reports
`len(content)`, the number of characters of the Python string. -/
def write_file_render (path content : String) (status : Int)
    (body : List Nat) : Except PyErr String :=
  if status = 200 then .ok s!"Successfully wrote {content.length} bytes to {path}"
  else if status = 403 then .ok s!"Error: Permission denied: {path}"
  else
    match utf8Decode body with
    | none => .ok s!"Error writing file (status {status})"
    | some s =>
      match jsonLoads s with
      | none => .ok s!"Error writing file (status {status})"
      | some e => do
        let msg ← pyGet e "message" (.str "Failed to write file")
        return s!"Error: {pyStr msg}"

/-- Rendering of `delete_file` (lines 352-367) applied to the structured
transport result: success exactly when the condition
`"data" in result and result["data"].get("deleted")` tests truthy. -/
def delete_file_render (path : String) (result : Json) :
    Except PyErr String := do
  let hasData ← pyIn "data" result
  let cond ← if hasData then do
      let d ← pySubscript result (.str "data")
      let v ← pyGet d "deleted" .null
      pure (pyTruthy v)
    else pure false
  if cond then
    return s!"Successfully deleted: {path}"
  else
    let msg ← pyGet result "message" (.str "Failed to delete")
    return s!"Error: {pyStr msg}"

/-- Rendering of `create_directory` (lines 371-384). -/
def create_directory_render (path : String) (result : Json) :
    Except PyErr String := do
  if ← pyIn "data" result then
    return s!"Successfully created directory: {path}"
  else
    let msg ← pyGet result "message" (.str "Failed to create directory")
    return s!"Error: {pyStr msg}"

/-! ## Round trip of the UTF-8 codec -/

theorem utf8DecodeStep_encodeChar (c : Char) (rest : List Nat) :
    utf8DecodeStep (utf8EncodeChar c ++ rest) = some (c, rest) := by
  have hv : c.toNat < 0xD800 ∨ (0xDFFF < c.toNat ∧ c.toNat < 0x110000) := c.valid
  have hofn : Char.ofNat c.toNat = c := Char.ofNat_toNat c
  unfold utf8EncodeChar
  by_cases h1 : c.toNat < 0x80
  · rw [if_pos h1]
    simp only [List.cons_append, List.nil_append]
    simp only [utf8DecodeStep]
    rw [if_pos h1, hofn]
  · rw [if_neg h1]
    by_cases h2 : c.toNat < 0x800
    · rw [if_pos h2]
      simp only [List.cons_append, List.nil_append]
      simp only [utf8DecodeStep]
      rw [if_neg (by omega), if_neg (by omega), if_pos (by omega)]
      rw [if_pos ⟨by omega, by omega⟩]
      have ha : (0xC0 + c.toNat / 64 - 0xC0) * 64 + (0x80 + c.toNat % 64 - 0x80) =
          c.toNat := by omega
      rw [ha, hofn]
    · rw [if_neg h2]
      by_cases h3 : c.toNat < 0x10000
      · rw [if_pos h3]
        simp only [List.cons_append, List.nil_append]
        simp only [utf8DecodeStep]
        rw [if_neg (by omega), if_neg (by omega), if_neg (by omega),
          if_pos (by omega)]
        rw [if_pos ?hcond]
        case hcond =>
          refine ⟨?_, ?_, by omega, by omega⟩
          · by_cases he : 0xE0 + c.toNat / 4096 = 0xE0
            · rw [if_pos he]; omega
            · rw [if_neg he]; omega
          · by_cases he : 0xE0 + c.toNat / 4096 = 0xED
            · rw [if_pos he]; omega
            · rw [if_neg he]; omega
        have ha : (0xE0 + c.toNat / 4096 - 0xE0) * 4096 +
            (0x80 + c.toNat / 64 % 64 - 0x80) * 64 + (0x80 + c.toNat % 64 - 0x80) =
            c.toNat := by omega
        rw [ha, hofn]
      · rw [if_neg h3]
        simp only [List.cons_append, List.nil_append]
        simp only [utf8DecodeStep]
        rw [if_neg (by omega), if_neg (by omega), if_neg (by omega),
          if_neg (by omega), if_pos (by omega)]
        rw [if_pos ?hcond2]
        case hcond2 =>
          refine ⟨?_, ?_, by omega, by omega, by omega, by omega⟩
          · by_cases he : 0xF0 + c.toNat / 262144 = 0xF0
            · rw [if_pos he]; omega
            · rw [if_neg he]; omega
          · by_cases he : 0xF0 + c.toNat / 262144 = 0xF4
            · rw [if_pos he]; omega
            · rw [if_neg he]; omega
        have ha : (0xF0 + c.toNat / 262144 - 0xF0) * 262144 +
            (0x80 + c.toNat / 4096 % 64 - 0x80) * 4096 +
            (0x80 + c.toNat / 64 % 64 - 0x80) * 64 + (0x80 + c.toNat % 64 - 0x80) =
            c.toNat := by omega
        rw [ha, hofn]

theorem utf8EncodeChar_length_pos (c : Char) : 1 ≤ (utf8EncodeChar c).length := by
  simp only [utf8EncodeChar]
  split
  · simp
  · split
    · simp
    · split <;> simp

theorem utf8EncodeChar_ne_nil (c : Char) : utf8EncodeChar c ≠ [] := by
  intro h
  have := utf8EncodeChar_length_pos c
  rw [h] at this
  simp at this

theorem utf8DecodeGo_flatMap : ∀ (cs : List Char) (fuel : Nat),
    (cs.flatMap utf8EncodeChar).length ≤ fuel →
    utf8DecodeGo fuel (cs.flatMap utf8EncodeChar) = some cs := by
  intro cs
  induction cs with
  | nil =>
    intro fuel _
    rw [List.flatMap_nil]
    cases fuel <;> rfl
  | cons c cs ih =>
    intro fuel hfuel
    rw [List.flatMap_cons] at hfuel ⊢
    have hlc := utf8EncodeChar_length_pos c
    have hlen : 1 ≤ (utf8EncodeChar c ++ cs.flatMap utf8EncodeChar).length := by
      rw [List.length_append]
      omega
    cases fuel with
    | zero => omega
    | succ f =>
      have hne : utf8EncodeChar c ++ cs.flatMap utf8EncodeChar ≠ [] := by
        intro hcontra
        rw [hcontra] at hlen
        simp at hlen
      obtain ⟨b, rest, heq⟩ := List.exists_cons_of_ne_nil hne
      rw [heq, utf8DecodeGo, ← heq, utf8DecodeStep_encodeChar]
      show (utf8DecodeGo f (cs.flatMap utf8EncodeChar)).map (fun l => c :: l) =
        some (c :: cs)
      rw [ih f (by rw [List.length_append] at hfuel; omega)]
      rfl

theorem utf8DecodeChars_flatMap (cs : List Char) :
    utf8DecodeChars (cs.flatMap utf8EncodeChar) = some cs :=
  utf8DecodeGo_flatMap cs _ (Nat.le_refl _)

theorem utf8Decode_encode (s : String) : utf8Decode (utf8Encode s) = some s := by
  cases s with
  | mk data => rw [utf8Encode, utf8Decode, utf8DecodeChars_flatMap]; rfl

/-! ## Round trip of JSON serialization through the parser -/

theorem skipWs_cons {c : Char} (l : List Char) (h : isJsonWs c = false) :
    skipWs (c :: l) = c :: l := by
  rw [skipWs, h]
  rfl

theorem hexDigitVal_digitChar : ∀ d : Nat, d < 16 →
    hexDigitVal (Nat.digitChar d) = some d := by decide

theorem parseStringStep_escape (c : Char) (rest : List Char) :
    parseStringStep (escapeJsonChar c ++ rest) = some (some c, rest) := by
  have hofn : Char.ofNat c.toNat = c := Char.ofNat_toNat c
  unfold escapeJsonChar
  by_cases h1 : c = '"'
  · subst h1
    simp [parseStringStep]
  · rw [if_neg h1]
    by_cases h2 : c = '\\'
    · subst h2
      simp [parseStringStep]
    · rw [if_neg h2]
      by_cases h3 : c.toNat < 0x20
      · rw [if_pos h3]
        simp only [List.cons_append, List.nil_append, parseStringStep]
        rw [hexDigitVal_digitChar (c.toNat / 16) (by omega),
          hexDigitVal_digitChar (c.toNat % 16) (by omega)]
        have h0 : hexDigitVal '0' = some 0 := by decide
        rw [h0]
        simp only []
        rw [if_neg (by omega), if_neg (by omega)]
        have ha : 0 * 4096 + 0 * 256 + c.toNat / 16 * 16 + c.toNat % 16 = c.toNat := by
          omega
        rw [ha, hofn]
      · rw [if_neg h3]
        simp only [List.cons_append, List.nil_append]
        rw [parseStringStep.eq_def]
        split
        · simp_all
        · rename_i heq
          rw [List.cons.injEq] at heq
          exact absurd heq.1 h1
        · rename_i heq
          rw [List.cons.injEq] at heq
          exact absurd heq.1 h2
        · rename_i heq
          rw [List.cons.injEq] at heq
          exact absurd heq.1 h2
        · rename_i heq
          rw [List.cons.injEq] at heq
          obtain ⟨hc, hr⟩ := heq
          subst hc
          subst hr
          rw [if_neg h3]

theorem escapeJsonChar_length_pos (c : Char) : 1 ≤ (escapeJsonChar c).length := by
  simp only [escapeJsonChar]
  split
  · simp
  · split
    · simp
    · split <;> simp

theorem flatMap_escape_length (s : List Char) :
    s.length ≤ (s.flatMap escapeJsonChar).length := by
  induction s with
  | nil => simp
  | cons c cs ih =>
    rw [List.flatMap_cons, List.length_append, List.length_cons]
    have := escapeJsonChar_length_pos c
    omega

theorem parseStringGo_escape : ∀ (s rest : List Char) (fuel : Nat),
    s.length + 1 ≤ fuel →
    parseStringGo fuel (s.flatMap escapeJsonChar ++ '"' :: rest) = some (s, rest) := by
  intro s
  induction s with
  | nil =>
    intro rest fuel hfuel
    cases fuel with
    | zero => omega
    | succ f =>
      rw [List.flatMap_nil, List.nil_append, parseStringGo]
      simp [parseStringStep]
  | cons c cs ih =>
    intro rest fuel hfuel
    cases fuel with
    | zero => simp at hfuel
    | succ f =>
      rw [List.flatMap_cons, List.append_assoc, parseStringGo,
        parseStringStep_escape]
      show (parseStringGo f (cs.flatMap escapeJsonChar ++ '"' :: rest)).map
        (fun p => (c :: p.1, p.2)) = some (c :: cs, rest)
      rw [ih rest f (by simp at hfuel; omega)]
      rfl

theorem parseStringBody_escape (s : List Char) (rest : List Char) :
    parseStringBody (s.flatMap escapeJsonChar ++ '"' :: rest) = some (s, rest) := by
  rw [parseStringBody]
  refine parseStringGo_escape s rest _ ?_
  have h1 := flatMap_escape_length s
  rw [List.length_append, List.length_cons]
  omega

/-- Input position at which a serialized numeral may legally stop: end of
input, or a character that neither extends the digit string nor turns it
into a float literal. -/
def numBoundary : List Char → Bool
  | [] => true
  | c :: _ => !c.isDigit && !(c == '.') && !(c == 'e') && !(c == 'E')

theorem isDigit_ne {c : Char} (h : c.isDigit = true) (d : Char)
    (hd : d.isDigit = false) : c ≠ d := by
  intro hc
  subst hc
  rw [h] at hd
  exact Bool.noConfusion hd

theorem digitChar_isDigit : ∀ d : Nat, d < 10 →
    (Nat.digitChar d).isDigit = true := by decide

theorem digitChar_toNat : ∀ d : Nat, d < 10 →
    (Nat.digitChar d).toNat = d + 48 := by decide

theorem digitChar_ne_zeroChar : ∀ d : Nat, d < 10 → d ≠ 0 →
    Nat.digitChar d ≠ '0' := by decide

theorem natChars_all_digit (n : Nat) : ∀ c ∈ natChars n, c.isDigit = true := by
  intro c hc
  unfold natChars at hc
  split at hc
  · simp at hc
    subst hc
    decide
  · simp only [List.mem_map, List.mem_reverse] at hc
    obtain ⟨d, hd, hdc⟩ := hc
    subst hdc
    exact digitChar_isDigit d (Nat.digits_lt_base (by norm_num) hd)

theorem natChars_head (n : Nat) :
    ∃ c t, natChars n = c :: t ∧ c.isDigit = true ∧ (n ≠ 0 → c ≠ '0') := by
  unfold natChars
  by_cases h0 : n = 0
  · rw [if_pos h0]
    exact ⟨'0', [], rfl, by decide, fun h => absurd h0 h⟩
  · rw [if_neg h0]
    have hne : (Nat.digits 10 n).reverse ≠ [] := by
      simp [Nat.digits_ne_nil_iff_ne_zero, h0]
    match hrev : (Nat.digits 10 n).reverse with
    | [] => exact absurd hrev hne
    | d :: ds =>
      have hdmem : d ∈ Nat.digits 10 n := by
        have : d ∈ (Nat.digits 10 n).reverse := by rw [hrev]; exact List.mem_cons_self d ds
        simpa using this
      have hdlt : d < 10 := Nat.digits_lt_base (by norm_num) hdmem
      have hdlast : (Nat.digits 10 n).getLast? = some d := by
        rw [List.getLast?_eq_head?_reverse, hrev]
        rfl
      have hdne : d ≠ 0 := by
        intro hd0
        subst hd0
        have hnil : Nat.digits 10 n ≠ [] := Nat.digits_ne_nil_iff_ne_zero.mpr h0
        have := Nat.getLast_digit_ne_zero 10 h0
        rw [List.getLast?_eq_getLast _ hnil] at hdlast
        exact this (Option.some.injEq _ _ ▸ hdlast.symm ▸ rfl)
      exact ⟨Nat.digitChar d, ds.map Nat.digitChar, by rw [List.map_cons],
        digitChar_isDigit d hdlt, fun _ => digitChar_ne_zeroChar d hdlt hdne⟩

theorem digitsVal_append_singleton (ds : List Char) (c : Char) :
    digitsVal (ds ++ [c]) = digitsVal ds * 10 + (c.toNat - 48) := by
  simp [digitsVal, List.foldl_append]

theorem digitsVal_reverse_map (L : List Nat) (hL : ∀ d ∈ L, d < 10) :
    digitsVal ((L.map Nat.digitChar).reverse) = Nat.ofDigits 10 L := by
  induction L with
  | nil => rfl
  | cons d L ih =>
    rw [List.map_cons, List.reverse_cons, digitsVal_append_singleton,
      ih (fun x hx => hL x (List.mem_cons_of_mem d hx)),
      digitChar_toNat d (hL d (List.mem_cons_self d L)), Nat.ofDigits_cons]
    omega

theorem digitsVal_natChars (n : Nat) : digitsVal (natChars n) = n := by
  unfold natChars
  by_cases h0 : n = 0
  · rw [if_pos h0, h0]
    decide
  · rw [if_neg h0, List.map_reverse,
      digitsVal_reverse_map _ (fun d hd => Nat.digits_lt_base (by norm_num) hd),
      Nat.ofDigits_digits]

theorem takeDigits_append (ds rest : List Char)
    (hds : ∀ c ∈ ds, c.isDigit = true) (hr : numBoundary rest = true) :
    takeDigits (ds ++ rest) = (ds, rest) := by
  induction ds with
  | nil =>
    rw [List.nil_append]
    cases rest with
    | nil => rfl
    | cons c t =>
      rw [takeDigits]
      rw [numBoundary] at hr
      have : c.isDigit = false := by
        cases h : c.isDigit
        · rfl
        · rw [h] at hr; simp at hr
      rw [this]
      rfl
  | cons c ds ih =>
    rw [List.cons_append, takeDigits, hds c (List.mem_cons_self c ds),
      ih (fun x hx => hds x (List.mem_cons_of_mem c hx))]
    simp

theorem floatContinues_of_numBoundary {rest : List Char}
    (hr : numBoundary rest = true) : floatContinues rest = false := by
  cases rest with
  | nil => rfl
  | cons c t =>
    rw [numBoundary] at hr
    simp only [Bool.and_eq_true, Bool.not_eq_true'] at hr
    obtain ⟨⟨⟨h1, h2⟩, h3⟩, h4⟩ := hr
    rw [floatContinues, h2, h3, h4]
    rfl

theorem numBoundary_not_digit {c : Char} {t : List Char}
    (hr : numBoundary (c :: t) = true) : c.isDigit = false := by
  rw [numBoundary] at hr
  simp only [Bool.and_eq_true, Bool.not_eq_true'] at hr
  exact hr.1.1.1

theorem parseIntLit_natChars (n : Nat) (rest : List Char)
    (hr : numBoundary rest = true) :
    parseIntLit (natChars n ++ rest) = some (n, rest) := by
  by_cases h0 : n = 0
  · subst h0
    have : natChars 0 = ['0'] := rfl
    rw [this, List.cons_append, List.nil_append]
    rw [parseIntLit.eq_def]
    simp only [if_pos]
    cases rest with
    | nil => rfl
    | cons c t =>
      show (if c.isDigit = true then none else some (0, c :: t)) = some (0, c :: t)
      rw [numBoundary_not_digit hr]
      simp
  · obtain ⟨c, t, hnat, hdig, hne0⟩ := natChars_head n
    rw [hnat, List.cons_append, parseIntLit.eq_def]
    simp only []
    rw [if_neg (hne0 h0), hdig]
    simp only []
    rw [takeDigits_append t rest
      (fun x hx => natChars_all_digit n x (hnat ▸ List.mem_cons_of_mem c hx)) hr]
    have : digitsVal (c :: t) = n := by
      rw [← hnat]
      exact digitsVal_natChars n
    simp [this]

mutual

/-- Fuel needed by `parseValue` on the serialized form of a value. -/
def needV : Json → Nat
  | .null => 1
  | .bool _ => 1
  | .num _ => 1
  | .str _ => 1
  | .arr xs => 1 + needList xs
  | .obj kvs => 1 + needPairs kvs

def needList : List Json → Nat
  | [] => 1
  | x :: xs => 1 + max (needV x) (needList xs)

def needPairs : List (String × Json) → Nat
  | [] => 1
  | (_, v) :: ps => 1 + max (needV v) (needPairs ps)

end

theorem needV_pos (v : Json) : 1 ≤ needV v := by
  cases v <;> simp [needV]

theorem needList_pos (xs : List Json) : 1 ≤ needList xs := by
  cases xs <;> simp [needList]

theorem needPairs_pos (ps : List (String × Json)) : 1 ≤ needPairs ps := by
  cases ps with
  | nil => simp [needPairs]
  | cons p ps => obtain ⟨k, v⟩ := p; simp [needPairs]

theorem isDigit_not_ws {c : Char} (h : c.isDigit = true) : isJsonWs c = false := by
  rw [isJsonWs]
  simp only [Bool.or_eq_false_iff, beq_eq_false_iff_ne]
  exact ⟨⟨⟨isDigit_ne h ' ' (by decide), isDigit_ne h '\t' (by decide)⟩,
    isDigit_ne h '\n' (by decide)⟩, isDigit_ne h '\r' (by decide)⟩

theorem serChars_head (v : Json) : ∃ c t, serChars v = c :: t ∧
    isJsonWs c = false ∧ c ≠ ']' ∧ c ≠ '\x7d' := by
  cases v with
  | null => exact ⟨'n', _, rfl, by decide, by decide, by decide⟩
  | bool b =>
    cases b
    · exact ⟨'f', _, rfl, by decide, by decide, by decide⟩
    · exact ⟨'t', _, rfl, by decide, by decide, by decide⟩
  | num n =>
    show ∃ c t, intChars n = c :: t ∧ _
    rw [intChars]
    by_cases hn : n < 0
    · rw [if_pos hn]
      exact ⟨'-', _, rfl, by decide, by decide, by decide⟩
    · rw [if_neg hn]
      obtain ⟨c, t, hnat, hdig, _⟩ := natChars_head n.natAbs
      exact ⟨c, t, hnat, isDigit_not_ws hdig,
        isDigit_ne hdig ']' (by decide), isDigit_ne hdig '\x7d' (by decide)⟩
  | str s => exact ⟨'"', _, rfl, by decide, by decide, by decide⟩
  | arr xs => exact ⟨'[', _, rfl, by decide, by decide, by decide⟩
  | obj kvs => exact ⟨'\x7b', _, rfl, by decide, by decide, by decide⟩

theorem serChars_length_pos (v : Json) : 1 ≤ (serChars v).length := by
  obtain ⟨c, t, h, -⟩ := serChars_head v
  rw [h]
  simp

theorem jhasKey_cons (k2 : String) (w : Json) (t : List (String × Json))
    (x : String) : jhasKey ((k2, w) :: t) x = if k2 = x then true else jhasKey t x := by
  rw [jhasKey, jlookup]
  split
  · rfl
  · rfl

theorem objInsert_append {acc : List (String × Json)} {k : String} {v : Json}
    (h : jhasKey acc k = false) : objInsert acc k v = acc ++ [(k, v)] := by
  induction acc with
  | nil => rfl
  | cons p t ih =>
    obtain ⟨k2, w⟩ := p
    rw [jhasKey_cons] at h
    split at h
    · exact Bool.noConfusion h
    · rename_i hne
      rw [objInsert, if_neg hne, ih h]
      rfl

theorem jhasKey_append_false {acc : List (String × Json)} {k r : String}
    {v : Json} (h1 : jhasKey acc r = false) (h2 : k ≠ r) :
    jhasKey (acc ++ [(k, v)]) r = false := by
  induction acc with
  | nil =>
    rw [List.nil_append, jhasKey_cons, if_neg h2]
    rfl
  | cons p t ih =>
    obtain ⟨k2, w⟩ := p
    rw [jhasKey_cons] at h1
    split at h1
    · exact Bool.noConfusion h1
    · rename_i hne
      rw [List.cons_append, jhasKey_cons, if_neg hne]
      exact ih h1

mutual

theorem needV_le : ∀ v : Json, needV v ≤ (serChars v).length
  | .null => by simp [needV, serChars]
  | .bool b => by cases b <;> simp [needV, serChars]
  | .num n => by
    have := serChars_length_pos (.num n)
    simp only [needV]
    omega
  | .str s => by
    have := serChars_length_pos (.str s)
    simp only [needV]
    omega
  | .arr xs => by
    have h1 := needList_le xs
    simp only [needV, serChars, List.length_cons, List.length_append]
    simp at h1 ⊢
    omega
  | .obj kvs => by
    have h1 := needPairs_le kvs
    simp only [needV, serChars, List.length_cons, List.length_append]
    simp at h1 ⊢
    omega

theorem needList_le : ∀ xs : List Json, needList xs ≤ (serElems xs).length + 1
  | [] => by simp [needList, serElems]
  | [x] => by
    have h1 := needV_le x
    have h2 := serChars_length_pos x
    simp only [needList, serElems, needList]
    omega
  | x :: y :: ys => by
    have h1 := needV_le x
    have h2 := needList_le (y :: ys)
    have h3 := serChars_length_pos x
    rw [needList, serElems]
    simp only [List.length_append, List.length_cons]
    omega

theorem needPairs_le : ∀ ps : List (String × Json), needPairs ps ≤ (serMembers ps).length + 1
  | [] => by simp [needPairs, serMembers]
  | [(k, v)] => by
    have h1 := needV_le v
    have h2 := serChars_length_pos v
    simp only [needPairs, serMembers, needPairs, List.length_append]
    omega
  | (k, v) :: q :: qs => by
    have h1 := needV_le v
    have h2 := needPairs_le (q :: qs)
    have h3 := serChars_length_pos v
    rw [needPairs, serMembers]
    simp only [List.length_append, List.length_cons]
    omega

end

theorem serElems_head (x : Json) (xs : List Json) :
    ∃ c t, serElems (x :: xs) = c :: t ∧ isJsonWs c = false ∧
      c ≠ ']' ∧ c ≠ '\x7d' := by
  obtain ⟨c, t, hc, hw, h1, h2⟩ := serChars_head x
  cases xs with
  | nil => exact ⟨c, t, by rw [serElems, hc], hw, h1, h2⟩
  | cons y ys =>
    exact ⟨c, t ++ ',' :: serElems (y :: ys),
      by rw [serElems, hc, List.cons_append], hw, h1, h2⟩

theorem serMembers_head (k : String) (v : Json) (ps : List (String × Json)) :
    ∃ t, serMembers ((k, v) :: ps) = '"' :: t := by
  cases ps with
  | nil =>
    refine ⟨k.data.flatMap escapeJsonChar ++ ['"', ':'] ++ serChars v, ?_⟩
    rw [serMembers, serKey]
    simp
  | cons q qs =>
    refine ⟨k.data.flatMap escapeJsonChar ++ ['"', ':'] ++ serChars v ++
      ',' :: serMembers (q :: qs), ?_⟩
    rw [serMembers, serKey]
    simp

theorem numBoundary_nil : numBoundary [] = true := rfl

theorem numBoundary_comma (t : List Char) : numBoundary (',' :: t) = true := by
  rw [numBoundary]; decide

theorem numBoundary_rbrack (t : List Char) : numBoundary (']' :: t) = true := by
  rw [numBoundary]; decide

theorem numBoundary_rbrace (t : List Char) : numBoundary ('\x7d' :: t) = true := by
  rw [numBoundary]; decide

theorem jsonWFbList_cons {x : Json} {xs : List Json}
    (h : jsonWFbList (x :: xs) = true) : jsonWFb x = true ∧ jsonWFbList xs = true := by
  rw [jsonWFbList, Bool.and_eq_true] at h
  exact h

theorem jsonWFbPairs_cons {k : String} {v : Json} {ps : List (String × Json)}
    (h : jsonWFbPairs ((k, v) :: ps) = true) :
    jsonWFb v = true ∧ jsonWFbPairs ps = true := by
  rw [jsonWFbPairs, Bool.and_eq_true] at h
  exact h

theorem nodupKeysb_cons {k : String} {v : Json} {ps : List (String × Json)}
    (h : nodupKeysb ((k, v) :: ps) = true) :
    (∀ q ∈ ps, q.1 ≠ k) ∧ nodupKeysb ps = true := by
  rw [nodupKeysb, Bool.and_eq_true, Bool.not_eq_true'] at h
  refine ⟨fun q hq => ?_, h.2⟩
  have := List.any_eq_false.mp h.1 q hq
  simpa using this

theorem parse_roundtrip : ∀ fuel : Nat,
    (∀ v rest, jsonWFb v = true → needV v ≤ fuel → numBoundary rest = true →
      parseValue fuel (serChars v ++ rest) = some (v, rest)) ∧
    (∀ x xs acc rest, jsonWFbList (x :: xs) = true → needList (x :: xs) ≤ fuel →
      parseElems fuel acc (serElems (x :: xs) ++ ']' :: rest) =
        some (.arr (acc ++ x :: xs), rest)) ∧
    (∀ k v ps acc rest, jsonWFbPairs ((k, v) :: ps) = true →
      nodupKeysb ((k, v) :: ps) = true →
      (∀ q ∈ (k, v) :: ps, jhasKey acc q.1 = false) →
      needPairs ((k, v) :: ps) ≤ fuel →
      parseMembers fuel acc (serMembers ((k, v) :: ps) ++ '\x7d' :: rest) =
        some (.obj (acc ++ (k, v) :: ps), rest)) := by
  intro fuel
  induction fuel using Nat.strong_induction_on with
  | _ fuel ih =>
  cases fuel with
  | zero =>
    refine ⟨fun v rest hwf hneed hb => ?_, fun x xs acc rest hwf hneed => ?_,
      fun k v ps acc rest hwf hnd hdisj hneed => ?_⟩
    · exact absurd hneed (by have := needV_pos v; omega)
    · exact absurd hneed (by have := needList_pos (x :: xs); omega)
    · exact absurd hneed (by have := needPairs_pos ((k, v) :: ps); omega)
  | succ f =>
    have hf : f < f + 1 := Nat.lt_succ_self f
    refine ⟨?_, ?_, ?_⟩
    · -- parseValue on a serialized value
      intro v rest hwf hneed hb
      cases v with
      | null =>
        rw [show serChars .null = ['n', 'u', 'l', 'l'] from rfl]
        simp [parseValue]
      | bool b =>
        cases b
        · rw [show serChars (.bool false) = ['f', 'a', 'l', 's', 'e'] from rfl]
          simp [parseValue]
        · rw [show serChars (.bool true) = ['t', 'r', 'u', 'e'] from rfl]
          simp [parseValue]
      | num n =>
        rw [show serChars (.num n) = intChars n from rfl, intChars]
        by_cases hn : n < 0
        · rw [if_pos hn, List.cons_append, parseValue]
          simp only []
          rw [if_neg (by decide), if_neg (by decide), if_neg (by decide),
            if_neg (by decide), if_neg (by decide), if_neg (by decide), if_true]
          rw [parseIntLit_natChars n.natAbs rest hb]
          simp only []
          rw [floatContinues_of_numBoundary hb]
          simp only [Bool.false_eq_true, if_false]
          have h : (-(n.natAbs : Int)) = n := by omega
          rw [h]
        · rw [if_neg hn]
          obtain ⟨c, t, hnat, hdig, -⟩ := natChars_head n.natAbs
          rw [hnat, List.cons_append, parseValue]
          try simp only []
          rw [if_neg (isDigit_ne hdig '"' (by decide)),
            if_neg (isDigit_ne hdig '[' (by decide)),
            if_neg (isDigit_ne hdig '\x7b' (by decide)),
            if_neg (isDigit_ne hdig 't' (by decide)),
            if_neg (isDigit_ne hdig 'f' (by decide)),
            if_neg (isDigit_ne hdig 'n' (by decide)),
            if_neg (isDigit_ne hdig '-' (by decide))]
          rw [← List.cons_append, ← hnat, parseIntLit_natChars n.natAbs rest hb]
          simp only []
          rw [floatContinues_of_numBoundary hb]
          simp only [Bool.false_eq_true, if_false]
          have h : ((n.natAbs : Int)) = n := by omega
          rw [h]
      | str s =>
        obtain ⟨sd⟩ := s
        rw [show serChars (.str ⟨sd⟩) = '"' :: sd.flatMap escapeJsonChar ++ ['"']
          from rfl]
        simp only [List.cons_append, List.append_assoc, List.nil_append]
        rw [parseValue]
        simp only []
        rw [if_true, parseStringBody_escape]
        rfl
      | arr xs =>
        cases xs with
        | nil =>
          rw [show serChars (.arr []) = ['[', ']'] from rfl]
          simp only [List.cons_append, List.nil_append]
          rw [parseValue]
          simp only []
          rw [if_neg (by decide), if_true, skipWs_cons _ (by decide)]
          rfl
        | cons x xs =>
          rw [show serChars (.arr (x :: xs)) = '[' :: (serElems (x :: xs) ++ [']'])
            from rfl]
          simp only [List.cons_append, List.append_assoc, List.nil_append]
          rw [parseValue]
          simp only []
          rw [if_neg (by decide), if_true]
          obtain ⟨c, t, hser, hws, hne1, hne2⟩ := serElems_head x xs
          rw [hser, List.cons_append, skipWs_cons _ hws]
          have hred : (match c :: (t ++ ']' :: rest) with
              | ']' :: r2 => some (Json.arr [], r2)
              | r1 => parseElems f [] r1) =
              parseElems f [] (c :: (t ++ ']' :: rest)) := by
            split
            · rename_i heq
              rw [List.cons.injEq] at heq
              exact absurd heq.1 hne1
            · rfl
          rw [hred, ← List.cons_append, ← hser]
          rw [jsonWFb] at hwf
          have hneed2 : needList (x :: xs) ≤ f := by
            rw [needV] at hneed
            omega
          rw [(ih f hf).2.1 x xs [] rest hwf hneed2]
          rfl
      | obj kvs =>
        cases kvs with
        | nil =>
          rw [show serChars (.obj []) = ['\x7b', '\x7d'] from rfl]
          simp only [List.cons_append, List.nil_append]
          rw [parseValue]
          simp only []
          rw [if_neg (by decide), if_neg (by decide), if_true,
            skipWs_cons _ (by decide)]
          rfl
        | cons p ps =>
          obtain ⟨k, v⟩ := p
          rw [show serChars (.obj ((k, v) :: ps)) =
            '\x7b' :: (serMembers ((k, v) :: ps) ++ ['\x7d']) from rfl]
          simp only [List.cons_append, List.append_assoc, List.nil_append]
          rw [parseValue]
          simp only []
          rw [if_neg (by decide), if_neg (by decide), if_true]
          obtain ⟨t, hser⟩ := serMembers_head k v ps
          rw [hser, List.cons_append, skipWs_cons _ (by decide)]
          have hred : (match '"' :: (t ++ '\x7d' :: rest) with
              | '\x7d' :: r2 => some (Json.obj [], r2)
              | r1 => parseMembers f [] r1) =
              parseMembers f [] ('"' :: (t ++ '\x7d' :: rest)) := by
            split
            · rename_i heq
              rw [List.cons.injEq] at heq
              exact absurd heq.1 (by decide)
            · rfl
          rw [hred, ← List.cons_append, ← hser]
          rw [jsonWFb, Bool.and_eq_true] at hwf
          have hneed2 : needPairs ((k, v) :: ps) ≤ f := by
            rw [needV] at hneed
            omega
          rw [(ih f hf).2.2 k v ps [] rest hwf.2 hwf.1 (fun q _ => rfl) hneed2]
          rfl
    · -- parseElems on serialized elements
      intro x xs acc rest hwf hneed
      obtain ⟨hwx, hwxs⟩ := jsonWFbList_cons hwf
      rw [parseElems]
      cases xs with
      | nil =>
        rw [show serElems [x] = serChars x from rfl]
        have hx : parseValue f (serChars x ++ ']' :: rest) = some (x, ']' :: rest) := by
          refine (ih f hf).1 x (']' :: rest) hwx ?_ (numBoundary_rbrack rest)
          rw [needList, needList] at hneed
          omega
        rw [hx]
        simp only []
        rw [skipWs_cons _ (by decide)]
        rfl
      | cons y ys =>
        rw [show serElems (x :: y :: ys) = serChars x ++ ',' :: serElems (y :: ys)
          from rfl]
        simp only [List.append_assoc, List.cons_append]
        have hx : parseValue f (serChars x ++ ',' :: (serElems (y :: ys) ++ ']' :: rest)) =
            some (x, ',' :: (serElems (y :: ys) ++ ']' :: rest)) := by
          refine (ih f hf).1 x _ hwx ?_ (numBoundary_comma _)
          rw [needList] at hneed
          omega
        rw [hx]
        simp only []
        rw [skipWs_cons _ (by decide)]
        simp only []
        obtain ⟨c, t, hser, hws, -, -⟩ := serElems_head y ys
        rw [hser, List.cons_append, skipWs_cons _ hws, ← List.cons_append, ← hser]
        have hneed2 : needList (y :: ys) ≤ f := by
          rw [needList] at hneed
          omega
        rw [(ih f hf).2.1 y ys (acc ++ [x]) rest hwxs hneed2]
        simp
    · -- parseMembers on serialized bindings
      intro k v ps acc rest hwf hnd hdisj hneed
      obtain ⟨hwv, hwps⟩ := jsonWFbPairs_cons hwf
      obtain ⟨hndk, hndps⟩ := nodupKeysb_cons hnd
      have hkacc : jhasKey acc k = false := hdisj (k, v) (List.mem_cons_self _ _)
      cases ps with
      | nil =>
        rw [show serMembers [(k, v)] = serKey k ++ serChars v from rfl, serKey]
        simp only [List.cons_append, List.append_assoc, List.nil_append]
        rw [parseMembers]
        rw [parseStringBody_escape]
        simp only []
        rw [skipWs_cons _ (by decide)]
        simp only []
        obtain ⟨c, t, hserv, hws, hne1, hne2⟩ := serChars_head v
        rw [hserv, List.cons_append, skipWs_cons _ hws, ← List.cons_append, ← hserv]
        have hv : parseValue f (serChars v ++ '\x7d' :: rest) =
            some (v, '\x7d' :: rest) := by
          refine (ih f hf).1 v _ hwv ?_ (numBoundary_rbrace rest)
          rw [needPairs, needPairs] at hneed
          omega
        rw [hv]
        simp only []
        rw [skipWs_cons _ (by decide)]
        simp only []
        rw [show (⟨k.data⟩ : String) = k from rfl, objInsert_append hkacc]
      | cons q qs =>
        obtain ⟨k2, v2⟩ := q
        rw [show serMembers ((k, v) :: (k2, v2) :: qs) =
          (serKey k ++ serChars v) ++ ',' :: serMembers ((k2, v2) :: qs) from rfl,
          serKey]
        simp only [List.cons_append, List.append_assoc, List.nil_append]
        rw [parseMembers]
        rw [parseStringBody_escape]
        simp only []
        rw [skipWs_cons _ (by decide)]
        simp only []
        obtain ⟨c, t, hserv, hws, hne1, hne2⟩ := serChars_head v
        rw [hserv, List.cons_append, skipWs_cons _ hws, ← List.cons_append, ← hserv]
        have hv : parseValue f (serChars v ++ ',' :: (serMembers ((k2, v2) :: qs) ++
            '\x7d' :: rest)) = some (v, ',' :: (serMembers ((k2, v2) :: qs) ++
            '\x7d' :: rest)) := by
          refine (ih f hf).1 v _ hwv ?_ (numBoundary_comma _)
          rw [needPairs] at hneed
          omega
        rw [hv]
        simp only []
        rw [skipWs_cons _ (by decide)]
        simp only []
        obtain ⟨t2, hser2⟩ := serMembers_head k2 v2 qs
        rw [hser2, List.cons_append, skipWs_cons _ (by decide), ← List.cons_append,
          ← hser2]
        rw [show (⟨k.data⟩ : String) = k from rfl, objInsert_append hkacc]
        have hdisj2 : ∀ q ∈ (k2, v2) :: qs, jhasKey (acc ++ [(k, v)]) q.1 = false := by
          intro q hq
          exact jhasKey_append_false (hdisj q (List.mem_cons_of_mem _ hq))
            (fun hkq => hndk q hq hkq.symm)
        have hneed2 : needPairs ((k2, v2) :: qs) ≤ f := by
          rw [needPairs] at hneed
          omega
        rw [(ih f hf).2.2 k2 v2 qs (acc ++ [(k, v)]) rest hwps hndps hdisj2 hneed2]
        simp

theorem jsonLoads_serialize (v : Json) (hwf : jsonWFb v = true) :
    jsonLoads (jsonSerialize v) = some v := by
  obtain ⟨c, t, hser, hws, -, -⟩ := serChars_head v
  have hskip : skipWs (serChars v) = serChars v := by
    rw [hser]
    exact skipWs_cons _ hws
  have hneed : needV v ≤ (serChars v).length + 1 := by
    have := needV_le v
    omega
  have hparse : parseValue ((serChars v).length + 1) (serChars v) = some (v, []) := by
    have h := (parse_roundtrip ((serChars v).length + 1)).1 v [] hwf hneed numBoundary_nil
    rwa [List.append_nil] at h
  show jsonLoads ⟨serChars v⟩ = some v
  rw [jsonLoads]
  simp only []
  rw [hskip, hparse]
  rfl

/-! ## Helper lemmas for the claim theorems -/

@[simp] theorem toString_String (s : String) : toString s = s := rfl

/-- Any string of the shape `("Error" ++ suf) ++ x ++ tail` contains the
substring `Error`. -/
theorem errSplit (suf x tail : String) :
    ∃ a b : String, ("Error" ++ suf) ++ x ++ tail = a ++ "Error" ++ b := by
  refine ⟨"", suf ++ x ++ tail, ?_⟩
  rw [String.append_assoc, String.append_assoc, String.empty_append,
    String.append_assoc]

theorem error_ne_success (x p : String) :
    ("Error: " ++ x : String) ≠ ("Successfully deleted: " ++ p) := by
  intro h
  have hd := congrArg String.data h
  simp only [String.data_append] at hd
  exact absurd (List.head_eq_of_cons_eq hd) (by decide)

theorem pyGet_obj_ok (kvs : List (String × Json)) (k : String) (dflt : Json) :
    pyGet (.obj kvs) k dflt = .ok (match jlookup kvs k with
      | some m => m
      | none => dflt) := by
  rw [pyGet]
  cases jlookup kvs k <;> rfl

/-! ## Claim theorems -/

/-- C1 (counterexample): the claim that `api_request` never raises on any
failure path is false — a 2xx response with a non-JSON body propagates
`json.JSONDecodeError` to the caller (the try/except catches only the two
`urllib` error classes), and a non-2xx response whose error body is not
valid UTF-8 propagates `UnicodeDecodeError` (the inner handler catches only
`json.JSONDecodeError`). -/
theorem api_request_raises_on_unparsed_bodies :
    api_request (.ok 200 (utf8Encode "not json")) = .error .jsonDecodeError ∧
    api_request (.httpError 500 [0xFF]) = .error .unicodeDecodeError ∧
    api_request (.ok 200 [0xFF]) = .error .unicodeDecodeError :=
  ⟨rfl, rfl, rfl⟩

/-- C1 (amended): `api_request` returns a structured result without
raising on every connection failure, on every HTTP error status whose body
decodes as UTF-8 (whether or not it parses as JSON), and on every 2xx
response whose body decodes as UTF-8 and parses as JSON; the remaining
paths (non-JSON 2xx body, non-UTF-8 body) raise, as shown by the
counterexample. -/
theorem api_request_structured_on_modelled_failures (out : HttpOutcome)
    (h : match out with
      | .ok _ body => ∃ s j, utf8Decode body = some s ∧ jsonLoads s = some j
      | .httpError _ body => (utf8Decode body).isSome = true
      | .urlError _ => True) :
    ∃ j, api_request out = .ok j := by
  cases out with
  | ok status body =>
    obtain ⟨s, j, hs, hj⟩ := h
    exact ⟨j, by simp [api_request, hs, hj]⟩
  | httpError code body =>
    obtain ⟨s, hs⟩ := Option.isSome_iff_exists.mp h
    cases hj : jsonLoads s with
    | some j => exact ⟨j, by simp [api_request, hs, hj]⟩
    | none =>
      exact ⟨.obj [("error", .num code), ("message", .str s)],
        by simp [api_request, hs, hj]⟩
  | urlError reason =>
    exact ⟨.obj [("error", .str "connection_error"), ("message", .str reason)], rfl⟩

/-- Witness for the amended C1 theorem at a concrete HTTP error outcome
with a plain-text body. -/
theorem api_request_structured_on_modelled_failures_witness :
    ∃ j, api_request (.httpError 503 (utf8Encode "busy")) = .ok j :=
  api_request_structured_on_modelled_failures
    (.httpError 503 (utf8Encode "busy")) (by decide)

/-- C2: for every non-2xx response whose error body is UTF-8 text, if that
text parses as JSON the parsed value is returned unmodified, and otherwise
the object with the status code under `error` and the body text under
`message` is returned. -/
theorem api_request_http_error_passthrough (code : Int) (body : List Nat)
    (s : String) (hdec : utf8Decode body = some s) :
    (∀ j, jsonLoads s = some j → api_request (.httpError code body) = .ok j) ∧
    (jsonLoads s = none →
      api_request (.httpError code body) =
        .ok (.obj [("error", .num code), ("message", .str s)])) := by
  constructor
  · intro j hj
    simp [api_request, hdec, hj]
  · intro hj
    simp [api_request, hdec, hj]

/-- Witness for C2: a 401 with a JSON error body is passed through
verbatim; a 404 with a plain-text body is wrapped. -/
theorem api_request_http_error_passthrough_witness :
    api_request (.httpError 401 (utf8Encode "\x7b\"error\": \"unauthorized\"\x7d")) =
      .ok (.obj [("error", .str "unauthorized")]) ∧
    api_request (.httpError 404 (utf8Encode "oops")) =
      .ok (.obj [("error", .num 404), ("message", .str "oops")]) := by
  constructor
  · exact (api_request_http_error_passthrough 401
      (utf8Encode "\x7b\"error\": \"unauthorized\"\x7d")
      "\x7b\"error\": \"unauthorized\"\x7d" (by decide)).1
      (.obj [("error", .str "unauthorized")]) (by decide)
  · exact (api_request_http_error_passthrough 404 (utf8Encode "oops") "oops"
      (by decide)).2 (by decide)

/-- C3: for every well-formed payload `X`, a 2xx response whose body is the
JSON serialization of the object binding `data` to `X` makes `api_request`
return exactly that object: parsing the success body inverts the remote's
serialization. -/
theorem api_request_success_roundtrip (X : Json) (h : jsonWFb X = true) :
    api_request (.ok 200 (utf8Encode (jsonSerialize (.obj [("data", X)])))) =
      .ok (.obj [("data", X)]) := by
  have hwf : jsonWFb (Json.obj [("data", X)]) = true := by
    simp [jsonWFb, nodupKeysb, jsonWFbPairs, h]
  have hdec := utf8Decode_encode (jsonSerialize (.obj [("data", X)]))
  have hload := jsonLoads_serialize (.obj [("data", X)]) hwf
  simp [api_request, hdec, hload]

/-- Witness for C3 at a concrete payload. -/
theorem api_request_success_roundtrip_witness :
    api_request (.ok 200 (utf8Encode (jsonSerialize
      (.obj [("data", .obj [("deleted", .bool true)])])))) =
      .ok (.obj [("data", .obj [("deleted", .bool true)])]) :=
  api_request_success_roundtrip (.obj [("deleted", .bool true)]) (by decide)

/-- C4: every transport-level failure yields the synthesized
`connection_error` object from the structured transport, and status `0`
with the UTF-8 encoded reason text from the raw transport. -/
theorem transport_connection_error_shape (reason : String) :
    api_request (.urlError reason) =
      .ok (.obj [("error", .str "connection_error"), ("message", .str reason)]) ∧
    api_request_raw (.urlError reason) = (0, utf8Encode reason) :=
  ⟨rfl, rfl⟩

/-- C6 (counterexample): with every optional argument provided but
`job_name` the empty string, the options mapping of the outgoing payload
does not contain the key `job_name`, refuting the claim that providing all
optional arguments makes `options` contain exactly the four option keys. -/
theorem submit_job_empty_optionals_not_in_payload :
    submit_job_payload "owens" "#!" (some "") (some "debug") (some 3600)
      (some "/tmp") (some "acct") =
      .obj [("cluster", .str "owens"),
        ("script", .obj [("content", .str "#!"), ("workdir", .str "/tmp")]),
        ("options", .obj [("queue_name", .str "debug"), ("wall_time", .num 3600),
          ("accounting_id", .str "acct")])] := rfl

/-- C6 (amended): with only the required arguments the payload carries no
optional field at all, and with all optional arguments provided with
truthy values (non-empty strings, non-zero wall time) the options mapping
contains exactly `job_name`, `queue_name`, `wall_time`, `accounting_id`,
with `script.workdir` present exactly when `workdir` was provided
truthy. -/
theorem submit_job_payload_fields (c s jn qn wd ai : String) (wt : Int)
    (hjn : jn ≠ "") (hqn : qn ≠ "") (hwt : wt ≠ 0) (hwd : wd ≠ "")
    (hai : ai ≠ "") :
    submit_job_payload c s none none none none none =
      .obj [("cluster", .str c), ("script", .obj [("content", .str s)]),
        ("options", .obj [])] ∧
    submit_job_payload c s (some jn) (some qn) (some wt) (some wd) (some ai) =
      .obj [("cluster", .str c),
        ("script", .obj [("content", .str s), ("workdir", .str wd)]),
        ("options", .obj [("job_name", .str jn), ("queue_name", .str qn),
          ("wall_time", .num wt), ("accounting_id", .str ai)])] := by
  constructor
  · rfl
  · simp [submit_job_payload, optStrField, optIntField, hjn, hqn, hwt, hwd, hai]

/-- Witness for the amended C6 theorem at concrete arguments. -/
theorem submit_job_payload_fields_witness :
    submit_job_payload "owens" "#!" none none none none none =
      .obj [("cluster", .str "owens"), ("script", .obj [("content", .str "#!")]),
        ("options", .obj [])] ∧
    submit_job_payload "owens" "#!" (some "j") (some "q") (some 60) (some "/w")
      (some "a") =
      .obj [("cluster", .str "owens"),
        ("script", .obj [("content", .str "#!"), ("workdir", .str "/w")]),
        ("options", .obj [("job_name", .str "j"), ("queue_name", .str "q"),
          ("wall_time", .num 60), ("accounting_id", .str "a")])] :=
  submit_job_payload_fields "owens" "#!" "j" "q" "/w" "a" 60
    (by decide) (by decide) (by decide) (by decide) (by decide)

/-- C8: the code is wrong here — the success message of `write_file` claims
to report bytes written, but it interpolates `len(content)`, the number of
characters of the Python string, not the byte length of the UTF-8 request
body that was sent.  With content `"é"` the request body has two bytes,
yet the render reports 1. -/
theorem write_file_reports_char_count_not_bytes :
    write_file_render "/f" "é" 200 [] = .ok "Successfully wrote 1 bytes to /f" ∧
    (write_file_request_body "é").length = 2 ∧ ("é" : String).length = 1 :=
  ⟨rfl, rfl, rfl⟩

/-- C10: a falsy optional argument of `submit_job` (empty string, zero
wall time) is dropped from the outgoing payload exactly as if it had not
been provided, and the payload always carries the three keys `cluster`,
`script` and `options`, with `script.content` always bound to the script
content. -/
theorem submit_job_payload_falsy_omitted :
    (∀ c s qn wt wd ai, submit_job_payload c s (some "") qn wt wd ai =
      submit_job_payload c s none qn wt wd ai) ∧
    (∀ c s jn wt wd ai, submit_job_payload c s jn (some "") wt wd ai =
      submit_job_payload c s jn none wt wd ai) ∧
    (∀ c s jn qn wd ai, submit_job_payload c s jn qn (some 0) wd ai =
      submit_job_payload c s jn qn none wd ai) ∧
    (∀ c s jn qn wt ai, submit_job_payload c s jn qn wt (some "") ai =
      submit_job_payload c s jn qn wt none ai) ∧
    (∀ c s jn qn wt wd, submit_job_payload c s jn qn wt wd (some "") =
      submit_job_payload c s jn qn wt wd none) ∧
    (∀ c s jn qn wt wd ai, ∃ sc op,
      submit_job_payload c s jn qn wt wd ai =
        .obj [("cluster", .str c), ("script", sc), ("options", op)] ∧
      ∃ extra, sc = .obj (("content", .str s) :: extra)) := by
  refine ⟨fun c s qn wt wd ai => rfl, fun c s jn wt wd ai => ?_,
    fun c s jn qn wd ai => ?_, fun c s jn qn wt ai => ?_,
    fun c s jn qn wt wd => ?_, fun c s jn qn wt wd ai => ?_⟩
  · simp [submit_job_payload, optStrField]
  · simp [submit_job_payload, optIntField]
  · simp [submit_job_payload, optStrField]
  · simp [submit_job_payload, optStrField]
  · refine ⟨_, _, rfl, optStrField "workdir" wd, rfl⟩

/-- C7: `delete_file` reports success exactly when the structured result is
an object binding `data` to an object whose `deleted` entry (defaulting to
`None` when absent) tests truthy; in particular `\x7b"data": \x7b"deleted":
false\x7d\x7d` and any result lacking `data` report failure. -/
theorem delete_file_success_iff (path : String) (result : Json) :
    delete_file_render path result = .ok ("Successfully deleted: " ++ path) ↔
      ∃ kvs dkvs, result = .obj kvs ∧ jlookup kvs "data" = some (.obj dkvs) ∧
        pyTruthy (match jlookup dkvs "deleted" with
          | some m => m
          | none => .null) = true := by
  constructor
  · intro h
    cases result with
    | null => simp [delete_file_render, pyIn, bind, Except.bind, pure, Except.pure] at h
    | bool b => simp [delete_file_render, pyIn, bind, Except.bind, pure, Except.pure] at h
    | num n => simp [delete_file_render, pyIn, bind, Except.bind, pure, Except.pure] at h
    | str s =>
      by_cases hc : decide (List.IsInfix "data".data s.data) = true
      · simp [delete_file_render, pyIn, hc, pySubscript, bind, Except.bind,
          pure, Except.pure] at h
      · rw [Bool.not_eq_true] at hc
        simp only [delete_file_render, pyIn, hc, pyGet, bind, Except.bind,
          pure, Except.pure, Bool.false_eq_true, if_false] at h
        cases hm : jlookup [] "message" <;> simp [hm] at h
    | arr xs =>
      by_cases hc : Json.str "data" ∈ xs
      · simp [delete_file_render, pyIn, hc, pySubscript, bind, Except.bind,
          pure, Except.pure] at h
      · simp [delete_file_render, pyIn, hc, pyGet, bind, Except.bind,
          pure, Except.pure] at h
    | obj kvs =>
      cases hd : jlookup kvs "data" with
      | none =>
        have hk : jhasKey kvs "data" = false := by simp [jhasKey, hd]
        simp only [delete_file_render, pyIn, hk, pyGet, bind, Except.bind,
          pure, Except.pure, Bool.false_eq_true, if_false] at h
        cases hm : jlookup kvs "message" with
        | some m =>
          rw [hm] at h
          simp only [Except.ok.injEq, toString_String, String.append_empty] at h
          exact absurd h (error_ne_success _ _)
        | none =>
          rw [hm] at h
          simp only [Except.ok.injEq, toString_String, String.append_empty] at h
          exact absurd h (error_ne_success _ _)
      | some d =>
        have hk : jhasKey kvs "data" = true := by simp [jhasKey, hd]
        cases d with
        | obj dkvs =>
          by_cases ht : pyTruthy (match jlookup dkvs "deleted" with
              | some m => m
              | none => Json.null) = true
          · exact ⟨kvs, dkvs, rfl, hd, ht⟩
          · rw [Bool.not_eq_true] at ht
            simp only [delete_file_render, pyIn, hk, pySubscript, hd,
              pyGet_obj_ok, bind, Except.bind, pure, Except.pure, if_true, ht,
              Bool.false_eq_true, if_false] at h
            cases hm : jlookup kvs "message" with
            | some m =>
              rw [hm] at h
              simp only [Except.ok.injEq, toString_String, String.append_empty] at h
              exact absurd h (error_ne_success _ _)
            | none =>
              rw [hm] at h
              simp only [Except.ok.injEq, toString_String, String.append_empty] at h
              exact absurd h (error_ne_success _ _)
        | null =>
          simp [delete_file_render, pyIn, hk, pySubscript, hd, pyGet, bind,
            Except.bind, pure, Except.pure] at h
        | bool b =>
          simp [delete_file_render, pyIn, hk, pySubscript, hd, pyGet, bind,
            Except.bind, pure, Except.pure] at h
        | num n =>
          simp [delete_file_render, pyIn, hk, pySubscript, hd, pyGet, bind,
            Except.bind, pure, Except.pure] at h
        | str s2 =>
          simp [delete_file_render, pyIn, hk, pySubscript, hd, pyGet, bind,
            Except.bind, pure, Except.pure] at h
        | arr ys =>
          simp [delete_file_render, pyIn, hk, pySubscript, hd, pyGet, bind,
            Except.bind, pure, Except.pure] at h
  · rintro ⟨kvs, dkvs, rfl, hd, ht⟩
    have hk : jhasKey kvs "data" = true := by simp [jhasKey, hd]
    simp only [delete_file_render, pyIn, hk, pySubscript, hd, pyGet_obj_ok,
      bind, Except.bind, pure, Except.pure, if_true, ht]
    simp

/-- C5 (counterexample): the claim that on status 400 `read_file` always
surfaces the message or a generic bad-request phrase is false — when the
400 body parses as JSON that is not an object (here the array `[1]`), the
attribute access `error.get` raises `AttributeError`, which the
`except (json.JSONDecodeError, UnicodeDecodeError)` handler does not
catch. -/
theorem read_file_status400_nonobject_raises :
    read_file_render "/f" 400 (utf8Encode "[1]") = .error .attributeError := rfl

/-- C5 (amended): the per-status behaviour of `read_file` — decoded body on
a 200 with UTF-8 text, a binary placeholder with the byte count otherwise,
fixed not-found and permission-denied messages on 404 and 403, the JSON
object message (or the bad-request default) on 400, and the generic status
message elsewhere — holds whenever the 400 body is not JSON or is a JSON
object; the counterexample shows the remaining 400 paths raise. -/
theorem read_file_render_cases :
    (∀ path body s, utf8Decode body = some s →
      read_file_render path 200 body = .ok s) ∧
    (∀ path body, utf8Decode body = none →
      read_file_render path 200 body =
        .ok ("[Binary file, " ++ toString body.length ++ " bytes]")) ∧
    (∀ path body, read_file_render path 404 body =
      .ok ("Error: File not found: " ++ path)) ∧
    (∀ path body, read_file_render path 403 body =
      .ok ("Error: Permission denied: " ++ path)) ∧
    (∀ path body, utf8Decode body = none →
      read_file_render path 400 body = .ok "Error: Bad request") ∧
    (∀ path body s, utf8Decode body = some s → jsonLoads s = none →
      read_file_render path 400 body = .ok "Error: Bad request") ∧
    (∀ path body s kvs, utf8Decode body = some s →
      jsonLoads s = some (.obj kvs) →
      read_file_render path 400 body =
        .ok ("Error: " ++ pyStr (match jlookup kvs "message" with
          | some m => m
          | none => .str "Bad request"))) ∧
    (∀ path status body, status ≠ 200 → status ≠ 404 → status ≠ 403 →
      status ≠ 400 →
      read_file_render path status body =
        .ok ("Error reading file (status " ++ toString status ++ ")")) := by
  refine ⟨fun path body s hdec => ?_, fun path body hdec => ?_,
    fun path body => ?_, fun path body => ?_, fun path body hdec => ?_,
    fun path body s hdec hjson => ?_, fun path body s kvs hdec hjson => ?_,
    fun path status body h200 h404 h403 h400 => ?_⟩
  · simp [read_file_render, hdec]
  · simp [read_file_render, hdec]
  · simp [read_file_render]
  · simp [read_file_render]
  · simp [read_file_render, hdec]
  · simp [read_file_render, hdec, hjson]
  · simp [read_file_render, hdec, hjson, pyGet_obj_ok, bind, Except.bind,
      pure, Except.pure]
  · simp [read_file_render, h200, h404, h403, h400]

/-- Witness for the amended C5 theorem instantiating every conjunct at
concrete inputs. -/
theorem read_file_render_cases_witness :
    read_file_render "/f" 200 (utf8Encode "hello") = .ok "hello" ∧
    read_file_render "/f" 200 [0xFF] =
      .ok ("[Binary file, " ++ toString (1 : Nat) ++ " bytes]") ∧
    read_file_render "/f" 404 [] = .ok ("Error: File not found: " ++ "/f") ∧
    read_file_render "/f" 403 [] =
      .ok ("Error: Permission denied: " ++ "/f") ∧
    read_file_render "/f" 400 [0xFF] = .ok "Error: Bad request" ∧
    read_file_render "/f" 400 (utf8Encode "oops") = .ok "Error: Bad request" ∧
    read_file_render "/f" 400 (utf8Encode "\x7b\"message\": \"no\"\x7d") =
      .ok ("Error: " ++ pyStr (match jlookup [("message", Json.str "no")]
        "message" with
        | some m => m
        | none => .str "Bad request")) ∧
    read_file_render "/f" 500 [] =
      .ok ("Error reading file (status " ++ toString (500 : Int) ++ ")") :=
  ⟨read_file_render_cases.1 "/f" (utf8Encode "hello") "hello" (by decide),
   read_file_render_cases.2.1 "/f" [0xFF] (by decide),
   read_file_render_cases.2.2.1 "/f" [],
   read_file_render_cases.2.2.2.1 "/f" [],
   read_file_render_cases.2.2.2.2.1 "/f" [0xFF] (by decide),
   read_file_render_cases.2.2.2.2.2.1 "/f" (utf8Encode "oops") "oops"
     (by decide) (by decide),
   read_file_render_cases.2.2.2.2.2.2.1 "/f"
     (utf8Encode "\x7b\"message\": \"no\"\x7d") "\x7b\"message\": \"no\"\x7d"
     [("message", Json.str "no")] (by decide) (by decide),
   read_file_render_cases.2.2.2.2.2.2.2 "/f" 500 [] (by decide) (by decide)
     (by decide) (by decide)⟩

/-- C9: every failure outcome renders to a text containing the literal
substring `Error` — for each structured operation a result object lacking
the key `data`, for `delete_file` additionally a present `data` whose
`deleted` field is falsy, and for the raw file operations any non-200
status whenever a text is returned at all. -/
theorem rendered_errors_contain_error :
    (∀ kvs, jhasKey kvs "data" = false →
      ∃ t, list_clusters_render (.obj kvs) = .ok t ∧
        ∃ a b : String, t = a ++ "Error" ++ b) ∧
    (∀ kvs, jhasKey kvs "data" = false →
      ∃ t, get_cluster_render (.obj kvs) = .ok t ∧
        ∃ a b : String, t = a ++ "Error" ++ b) ∧
    (∀ cid kvs, jhasKey kvs "data" = false →
      ∃ t, list_jobs_render cid (.obj kvs) = .ok t ∧
        ∃ a b : String, t = a ++ "Error" ++ b) ∧
    (∀ cid kvs, jhasKey kvs "data" = false →
      ∃ t, get_job_render cid (.obj kvs) = .ok t ∧
        ∃ a b : String, t = a ++ "Error" ++ b) ∧
    (∀ cid kvs, jhasKey kvs "data" = false →
      ∃ t, submit_job_render cid (.obj kvs) = .ok t ∧
        ∃ a b : String, t = a ++ "Error" ++ b) ∧
    (∀ jid kvs, jhasKey kvs "data" = false →
      ∃ t, cancel_job_render jid (.obj kvs) = .ok t ∧
        ∃ a b : String, t = a ++ "Error" ++ b) ∧
    (∀ p kvs, jhasKey kvs "data" = false →
      ∃ t, list_files_render p (.obj kvs) = .ok t ∧
        ∃ a b : String, t = a ++ "Error" ++ b) ∧
    (∀ p kvs, jhasKey kvs "data" = false →
      ∃ t, create_directory_render p (.obj kvs) = .ok t ∧
        ∃ a b : String, t = a ++ "Error" ++ b) ∧
    (∀ p kvs, jhasKey kvs "data" = false →
      ∃ t, delete_file_render p (.obj kvs) = .ok t ∧
        ∃ a b : String, t = a ++ "Error" ++ b) ∧
    (∀ p kvs dkvs, jlookup kvs "data" = some (.obj dkvs) →
      pyTruthy (match jlookup dkvs "deleted" with
        | some m => m
        | none => Json.null) = false →
      ∃ t, delete_file_render p (.obj kvs) = .ok t ∧
        ∃ a b : String, t = a ++ "Error" ++ b) ∧
    (∀ p status body t, status ≠ 200 →
      read_file_render p status body = .ok t →
      ∃ a b : String, t = a ++ "Error" ++ b) ∧
    (∀ p c status body t, status ≠ 200 →
      write_file_render p c status body = .ok t →
      ∃ a b : String, t = a ++ "Error" ++ b) := by
  refine ⟨fun kvs hk => ?_, fun kvs hk => ?_, fun cid kvs hk => ?_,
    fun cid kvs hk => ?_, fun cid kvs hk => ?_, fun jid kvs hk => ?_,
    fun p kvs hk => ?_, fun p kvs hk => ?_, fun p kvs hk => ?_,
    fun p kvs dkvs hd ht => ?_, fun p status body t h200 h => ?_,
    fun p c status body t h200 h => ?_⟩
  · simp only [list_clusters_render, pyIn, hk, Bool.false_eq_true, if_false,
      pyGet_obj_ok, bind, Except.bind, pure, Except.pure]
    refine ⟨_, rfl, ?_⟩
    show ∃ a b : String, ("Error" ++ ": ") ++
      pyStr (match jlookup kvs "message" with
        | some m => m
        | none => Json.str "Unknown error") ++ "" = a ++ "Error" ++ b
    exact errSplit ": " _ ""
  · simp only [get_cluster_render, pyIn, hk, Bool.false_eq_true, if_false,
      pyGet_obj_ok, bind, Except.bind, pure, Except.pure]
    refine ⟨_, rfl, ?_⟩
    show ∃ a b : String, ("Error" ++ ": ") ++
      pyStr (match jlookup kvs "message" with
        | some m => m
        | none => Json.str "Cluster not found") ++ "" = a ++ "Error" ++ b
    exact errSplit ": " _ ""
  · simp only [list_jobs_render, pyIn, hk, Bool.false_eq_true, if_false,
      pyGet_obj_ok, bind, Except.bind, pure, Except.pure]
    refine ⟨_, rfl, ?_⟩
    show ∃ a b : String, ("Error" ++ ": ") ++
      pyStr (match jlookup kvs "message" with
        | some m => m
        | none => Json.str "Failed to list jobs") ++ "" = a ++ "Error" ++ b
    exact errSplit ": " _ ""
  · simp only [get_job_render, pyIn, hk, Bool.false_eq_true, if_false,
      pyGet_obj_ok, bind, Except.bind, pure, Except.pure]
    refine ⟨_, rfl, ?_⟩
    show ∃ a b : String, ("Error" ++ ": ") ++
      pyStr (match jlookup kvs "message" with
        | some m => m
        | none => Json.str "Job not found") ++ "" = a ++ "Error" ++ b
    exact errSplit ": " _ ""
  · simp only [submit_job_render, pyIn, hk, Bool.false_eq_true, if_false,
      pyGet_obj_ok, bind, Except.bind, pure, Except.pure]
    refine ⟨_, rfl, ?_⟩
    show ∃ a b : String, ("Error" ++ " submitting job: ") ++
      pyStr (match jlookup kvs "message" with
        | some m => m
        | none => Json.str "Unknown error") ++ "" = a ++ "Error" ++ b
    exact errSplit " submitting job: " _ ""
  · simp only [cancel_job_render, pyIn, hk, Bool.false_eq_true, if_false,
      pyGet_obj_ok, bind, Except.bind, pure, Except.pure]
    refine ⟨_, rfl, ?_⟩
    show ∃ a b : String, ("Error" ++ " cancelling job: ") ++
      pyStr (match jlookup kvs "message" with
        | some m => m
        | none => Json.str "Unknown error") ++ "" = a ++ "Error" ++ b
    exact errSplit " cancelling job: " _ ""
  · simp only [list_files_render, pyIn, hk, Bool.false_eq_true, if_false,
      pyGet_obj_ok, bind, Except.bind, pure, Except.pure]
    refine ⟨_, rfl, ?_⟩
    show ∃ a b : String, ("Error" ++ ": ") ++
      pyStr (match jlookup kvs "message" with
        | some m => m
        | none => Json.str "Failed to list files") ++ "" = a ++ "Error" ++ b
    exact errSplit ": " _ ""
  · simp only [create_directory_render, pyIn, hk, Bool.false_eq_true,
      if_false, pyGet_obj_ok, bind, Except.bind, pure, Except.pure]
    refine ⟨_, rfl, ?_⟩
    show ∃ a b : String, ("Error" ++ ": ") ++
      pyStr (match jlookup kvs "message" with
        | some m => m
        | none => Json.str "Failed to create directory") ++ "" =
        a ++ "Error" ++ b
    exact errSplit ": " _ ""
  · simp only [delete_file_render, pyIn, hk, Bool.false_eq_true, if_false,
      pyGet_obj_ok, bind, Except.bind, pure, Except.pure]
    refine ⟨_, rfl, ?_⟩
    show ∃ a b : String, ("Error" ++ ": ") ++
      pyStr (match jlookup kvs "message" with
        | some m => m
        | none => Json.str "Failed to delete") ++ "" = a ++ "Error" ++ b
    exact errSplit ": " _ ""
  · have hk : jhasKey kvs "data" = true := by simp [jhasKey, hd]
    simp only [delete_file_render, pyIn, hk, pySubscript, hd, pyGet_obj_ok,
      bind, Except.bind, pure, Except.pure, if_true, ht, Bool.false_eq_true,
      if_false]
    refine ⟨_, rfl, ?_⟩
    show ∃ a b : String, ("Error" ++ ": ") ++
      pyStr (match jlookup kvs "message" with
        | some m => m
        | none => Json.str "Failed to delete") ++ "" = a ++ "Error" ++ b
    exact errSplit ": " _ ""
  · rw [read_file_render, if_neg h200] at h
    by_cases h404 : status = 404
    · rw [if_pos h404] at h
      simp only [Except.ok.injEq] at h
      subst h
      show ∃ a b : String, ("Error" ++ ": File not found: ") ++ p ++ "" =
        a ++ "Error" ++ b
      exact errSplit ": File not found: " p ""
    · rw [if_neg h404] at h
      by_cases h403 : status = 403
      · rw [if_pos h403] at h
        simp only [Except.ok.injEq] at h
        subst h
        show ∃ a b : String, ("Error" ++ ": Permission denied: ") ++ p ++ "" =
          a ++ "Error" ++ b
        exact errSplit ": Permission denied: " p ""
      · rw [if_neg h403] at h
        by_cases h400 : status = 400
        · rw [if_pos h400] at h
          cases hdec : utf8Decode body with
          | none =>
            rw [hdec] at h
            simp only [Except.ok.injEq] at h
            subst h
            exact ⟨"", ": Bad request", rfl⟩
          | some s =>
            rw [hdec] at h
            simp only [] at h
            cases hjson : jsonLoads s with
            | none =>
              rw [hjson] at h
              simp only [Except.ok.injEq] at h
              subst h
              exact ⟨"", ": Bad request", rfl⟩
            | some e =>
              rw [hjson] at h
              simp only [] at h
              cases e with
              | obj kvs =>
                simp only [pyGet_obj_ok, bind, Except.bind, pure,
                  Except.pure, Except.ok.injEq] at h
                subst h
                show ∃ a b : String, ("Error" ++ ": ") ++
                  pyStr (match jlookup kvs "message" with
                    | some m => m
                    | none => Json.str "Bad request") ++ "" =
                  a ++ "Error" ++ b
                exact errSplit ": " _ ""
              | null => simp [pyGet, bind, Except.bind] at h
              | bool b => simp [pyGet, bind, Except.bind] at h
              | num n => simp [pyGet, bind, Except.bind] at h
              | str s2 => simp [pyGet, bind, Except.bind] at h
              | arr xs => simp [pyGet, bind, Except.bind] at h
        · rw [if_neg h400] at h
          simp only [Except.ok.injEq] at h
          subst h
          show ∃ a b : String, ("Error" ++ " reading file (status ") ++
            toString status ++ ")" = a ++ "Error" ++ b
          exact errSplit " reading file (status " (toString status) ")"
  · rw [write_file_render, if_neg h200] at h
    by_cases h403 : status = 403
    · rw [if_pos h403] at h
      simp only [Except.ok.injEq] at h
      subst h
      show ∃ a b : String, ("Error" ++ ": Permission denied: ") ++ p ++ "" =
        a ++ "Error" ++ b
      exact errSplit ": Permission denied: " p ""
    · rw [if_neg h403] at h
      cases hdec : utf8Decode body with
      | none =>
        rw [hdec] at h
        simp only [Except.ok.injEq] at h
        subst h
        show ∃ a b : String, ("Error" ++ " writing file (status ") ++
          toString status ++ ")" = a ++ "Error" ++ b
        exact errSplit " writing file (status " (toString status) ")"
      | some s =>
        rw [hdec] at h
        simp only [] at h
        cases hjson : jsonLoads s with
        | none =>
          rw [hjson] at h
          simp only [Except.ok.injEq] at h
          subst h
          show ∃ a b : String, ("Error" ++ " writing file (status ") ++
            toString status ++ ")" = a ++ "Error" ++ b
          exact errSplit " writing file (status " (toString status) ")"
        | some e =>
          rw [hjson] at h
          simp only [] at h
          cases e with
          | obj kvs =>
            simp only [pyGet_obj_ok, bind, Except.bind, pure, Except.pure,
              Except.ok.injEq] at h
            subst h
            show ∃ a b : String, ("Error" ++ ": ") ++
              pyStr (match jlookup kvs "message" with
                | some m => m
                | none => Json.str "Failed to write file") ++ "" =
              a ++ "Error" ++ b
            exact errSplit ": " _ ""
          | null => simp [pyGet, bind, Except.bind] at h
          | bool b => simp [pyGet, bind, Except.bind] at h
          | num n => simp [pyGet, bind, Except.bind] at h
          | str s2 => simp [pyGet, bind, Except.bind] at h
          | arr xs => simp [pyGet, bind, Except.bind] at h

/-- Witness for C9 instantiating a structured operation, the falsy-deleted
branch of `delete_file`, and the two raw file operations at concrete
failure inputs. -/
theorem rendered_errors_contain_error_witness :
    (∃ t, list_clusters_render (.obj [("error", Json.str "x")]) = .ok t ∧
      ∃ a b : String, t = a ++ "Error" ++ b) ∧
    (∃ t, delete_file_render "/f"
        (.obj [("data", .obj [("deleted", .bool false)])]) = .ok t ∧
      ∃ a b : String, t = a ++ "Error" ++ b) ∧
    (∃ a b : String, ("Error: File not found: /f" : String) =
      a ++ "Error" ++ b) ∧
    (∃ a b : String, ("Error writing file (status 500)" : String) =
      a ++ "Error" ++ b) :=
  ⟨rendered_errors_contain_error.1 [("error", Json.str "x")] (by decide),
   rendered_errors_contain_error.2.2.2.2.2.2.2.2.2.1 "/f"
     [("data", Json.obj [("deleted", Json.bool false)])]
     [("deleted", Json.bool false)] (by decide) (by decide),
   rendered_errors_contain_error.2.2.2.2.2.2.2.2.2.2.1 "/f" 404 []
     "Error: File not found: /f" (by decide) rfl,
   rendered_errors_contain_error.2.2.2.2.2.2.2.2.2.2.2 "/f" "c" 500 []
     "Error writing file (status 500)" (by decide) rfl⟩
